import Mathlib

/-!
# Hybrid metadata backend and space index of reva's decomposedfs

A shallow embedding of

* `pkg/storage/pkg/decomposedfs/metadata/hybrid_backend.go` (`HybridBackend`), and
* `pkg/storage/utils/decomposedfs/spaceidindex/spaceidindex.go` (`Index`).

Go maps `map[string][]byte` are association lists whose list order stands for
one iteration order of the map; Go strings and byte slices are `String`s whose
`len` is the UTF-8 byte size.  Go's `error` is an `Option` (`none` is `nil`).
The substrates of one node (its xattrs, its sidecar file and its cache entry)
are an explicit state that every operation threads through.
-/

set_option autoImplicit false
set_option maxRecDepth 100000

namespace Hybrid

/-! ## Errors -/

/-- Error values: the errno classes the code distinguishes, and `errors.Wrap`. -/
inductive Err where
  | notExist
  | noData
  | io
  | codec
  | wrapped (msg : String) (cause : Err)
  deriving DecidableEq, Repr

/-- Go's `error`: `none` is `nil`. -/
abbrev GoError := Option Err

/-- The function `errors.Wrap` of pkg/errors: wrapping `nil` gives `nil`. -/
def Wrap : GoError → String → GoError
  | none, _ => none
  | some e, msg => some (Err.wrapped msg e)

/-- The function `errors.Cause`: the innermost error of a chain of wraps. -/
def Err.cause : Err → Err
  | Err.wrapped _ c => c.cause
  | e => e

/-- Modelled from the spec: `IsAttrUnset` (declared in another file of the
metadata package) recognises the xattr-specific "no data" error. -/
def IsAttrUnset (e : Err) : Bool :=
  e.cause == Err.noData

/-! ## Go maps -/

/-- A Go `map[string][]byte`. -/
abbrev AttrMap := List (String × String)

/-- Go's `len` of a string or byte slice. -/
def len (s : String) : Nat := s.utf8ByteSize

/-- Lookup with presence, `v, ok := m[k]`. -/
def mapGet (m : AttrMap) (k : String) : Option String :=
  match m with
  | [] => none
  | (k', v) :: rest => if k' = k then some v else mapGet rest k

/-- Go's `m[k]`: the zero value (empty bytes) when the key is absent. -/
def mapIndex (m : AttrMap) (k : String) : String :=
  (mapGet m k).getD ""

/-- Go's `m[k] = v`. -/
def mapSet (m : AttrMap) (k v : String) : AttrMap :=
  match m with
  | [] => [(k, v)]
  | (k', v') :: rest => if k' = k then (k, v) :: rest else (k', v') :: mapSet rest k v

/-- Go's `delete(m, k)`. -/
def mapDelete (m : AttrMap) (k : String) : AttrMap :=
  m.filter (fun e => !(e.1 == k))

/-- The keys of a map, in iteration order. -/
def mapKeys (m : AttrMap) : List String := m.map Prod.fst

/-- Overlay: `for k, v := range src { dst[k] = v }`. -/
def mapOverlay (dst src : AttrMap) : AttrMap :=
  src.foldl (fun acc kv => mapSet acc kv.1 kv.2) dst

/-- The function `strings.HasPrefix` (on valid UTF-8 a byte prefix is a character prefix). -/
def hasPrefix (s pre : String) : Bool :=
  pre.data.isPrefixOf s.data

/-! ## Constants of the `prefixes` package -/

/-- The constants `prefixes.OcPrefix` and `prefixes.GrantPrefix`; the package is
not part of the sources, so they are parameters. -/
structure Prefixes where
  OcPrefix : String
  GrantPrefix : String
  deriving DecidableEq, Repr

/-- The variable `_grantsOffloadedAttr`. -/
def grantsOffloadedAttr (px : Prefixes) : String :=
  px.OcPrefix ++ "grants_offloaded"

/-- The function `isGrantAttribute`. -/
def isGrantAttribute (px : Prefixes) (key : String) : Bool :=
  hasPrefix key px.GrantPrefix

/-- Modelled from the spec: the literal values of the end-to-end scenarios
(grant prefix `user.grant.`, offload marker `user.grants_offloaded`). -/
def specPrefixes : Prefixes :=
  { OcPrefix := "user.", GrantPrefix := "user.grant." }

/-! ## Substrates of one node -/

/-- The content of a file holding a msgpack map: zero bytes, a well-formed
encoding of a map, or anything else. -/
inductive FileData where
  | empty
  | msgpack (m : AttrMap)
  | malformed
  deriving DecidableEq, Repr

/-- The function `msgpack.Marshal` on a map. -/
def Marshal (m : AttrMap) : FileData × GoError :=
  (FileData.msgpack m, none)

/-- The function `msgpack.Unmarshal` into a map: the library rejects empty input. -/
def Unmarshal : FileData → AttrMap × GoError
  | FileData.msgpack m => (m, none)
  | FileData.empty => ([], some Err.codec)
  | FileData.malformed => ([], some Err.codec)

/-- The struct `HybridBackend`; its cache and the file its `metadataPathFunc`
names are part of the node state below. -/
structure HybridBackend where
  offloadLimit : Int
  deriving DecidableEq, Repr

/-- The substrates of one node. -/
structure NodeState where
  /-- Whether `os.Stat(n.InternalPath())` succeeds. -/
  pathExists : Bool
  /-- The extended attributes of `n.InternalPath()`, in `xattr.List` order. -/
  xattrs : AttrMap
  /-- The file at `MetadataPath(n)`, `none` when it does not exist. -/
  sidecar : Option FileData
  /-- The cache entry at `cacheKey(n)`, `none` when there is none. -/
  cache : Option AttrMap
  deriving DecidableEq, Repr

/-- Outcomes of the xattr system calls beyond their semantics: the attribute
names on which `xattr.Set`, `xattr.Get` and `xattr.Remove` fail. -/
structure Faults where
  setFails : List String
  getFails : List (String × Err)
  removeFails : List String
  deriving DecidableEq, Repr

/-- The failure pattern in which no call is made to fail: on an existing path
`xattr.Set` accepts every name and value, and `xattr.Get` and `xattr.Remove` fail
only on an attribute that is not set.  The failures the OS adds to these (a name
outside a supported namespace, a value over the size limit, an I/O error) are
the patterns that list the names concerned. -/
def noFaults : Faults :=
  { setFails := [], getFails := [], removeFails := [] }

/-! ## System calls and libraries -/

/-- The function `xattr.Get(path, name)`. -/
def xattrGet (f : Faults) (s : NodeState) (name : String) : String × GoError :=
  if s.pathExists then
    match List.lookup name f.getFails with
    | some e => ("", some e)
    | none =>
      match mapGet s.xattrs name with
      | some v => (v, none)
      | none => ("", some Err.noData)
  else ("", some Err.notExist)

/-- The function `xattr.Set(path, name, val)`. -/
def xattrSet (f : Faults) (s : NodeState) (name val : String) : NodeState × GoError :=
  if s.pathExists then
    if name ∈ f.setFails then (s, some Err.io)
    else ({ s with xattrs := mapSet s.xattrs name val }, none)
  else (s, some Err.notExist)

/-- The function `xattr.Remove(path, name)`: removing an attribute that is not
set is an error. -/
def xattrRemove (f : Faults) (s : NodeState) (name : String) : NodeState × GoError :=
  if s.pathExists then
    if name ∈ f.removeFails then (s, some Err.io)
    else
      match mapGet s.xattrs name with
      | some _ => ({ s with xattrs := mapDelete s.xattrs name }, none)
      | none => (s, some Err.noData)
  else (s, some Err.notExist)

/-- The function `xattr.List(path)`. -/
def xattrList (s : NodeState) : List String × GoError :=
  if s.pathExists then (mapKeys s.xattrs, none) else ([], some Err.notExist)

/-- The call `os.ReadFile(b.MetadataPath(n))`. -/
def ReadFile (s : NodeState) : FileData × GoError :=
  match s.sidecar with
  | some d => (d, none)
  | none => (FileData.empty, some Err.notExist)

/-- The call `renameio.WriteFile(b.MetadataPath(n), d, 0600)`. -/
def WriteFile (s : NodeState) (d : FileData) : NodeState × GoError :=
  ({ s with sidecar := some d }, none)

/-- Modelled from the spec: `pull(key, out_map) -> ok|miss` of the backend's
cache; on a miss the out map is left as it was passed in (empty). -/
def PullFromCache (s : NodeState) : AttrMap × GoError :=
  match s.cache with
  | some m => (m, none)
  | none => ([], some Err.notExist)

/-- Modelled from the spec: `push(key, map)` of the backend's cache. -/
def PushToCache (s : NodeState) (m : AttrMap) : NodeState × GoError :=
  ({ s with cache := some m }, none)

/-- Modelled from the spec: `remove(key)` of the backend's cache. -/
def RemoveMetadata (s : NodeState) : NodeState × GoError :=
  ({ s with cache := none }, none)

/-! ## The hybrid backend -/

/-- The function `errors.Is(err, target)`. -/
def errorsIs (e target : Err) : Bool :=
  e == target ||
    match e with
    | Err.wrapped _ c => errorsIs c target
    | _ => false

/-- The method `HybridBackend.list`: when `xattr.List` fails it is tried again,
after opening the lockfile when `acquireLock` is set. -/
def list (s : NodeState) (_acquireLock : Bool) : List String × GoError :=
  match xattrList s with
  | (attrs, none) => (attrs, none)
  | (_, some _) => xattrList s

/-- One iteration of the read loop of `getAll` (lines 157-164): the accumulator
is `(attribs, xerrs, xerr)`. -/
def getAllStep (f : Faults) (s : NodeState) (acc : AttrMap × Nat × GoError) (name : String) :
    AttrMap × Nat × GoError :=
  match xattrGet f s name with
  | (val, some e) =>
    if !IsAttrUnset e then (acc.1, acc.2.1 + 1, some e)
    else (mapSet acc.1 name val, acc.2.1, some e)
  | (val, none) => (mapSet acc.1 name val, acc.2.1, none)

/-- Lines 170-185 of `getAll`: merge the attributes from the offload file. -/
def mergeOffloaded (px : Prefixes) (f : Faults) (s : NodeState) (skipOffloaded : Bool)
    (attribs : AttrMap) : AttrMap × GoError :=
  match xattrGet f s (grantsOffloadedAttr px) with
  | (offloaded, err) =>
    if skipOffloaded = false ∧ err = none ∧ offloaded = "1" then
      match ReadFile s with
      | (_, some e) => ([], some e)
      | (msgBytes, none) =>
        match Unmarshal msgBytes with
        | (_, some e) => ([], some e)
        | (msgpackAttribs, none) => (mapOverlay attribs msgpackAttribs, none)
    else (attribs, none)

/-- The method `HybridBackend.getAll`; a `nil` map is the empty map. -/
def getAll (px : Prefixes) (f : Faults) (s : NodeState)
    (skipCache skipOffloaded acquireLock : Bool) : NodeState × AttrMap × GoError :=
  if skipCache = false ∧ (PullFromCache s).2 = none then (s, (PullFromCache s).1, none)
  else
    match list s acquireLock with
    | (_, some e) => (s, [], some e)
    | (attrNames, none) =>
      if attrNames.length = 0 then (s, [], none)
      else
        match attrNames.foldl (getAllStep f s) ([], 0, none) with
        | (attribs, xerrs, xerr) =>
          if xerrs > 0 then (s, [], Wrap xerr "Failed to read all xattrs")
          else
            match mergeOffloaded px f s skipOffloaded attribs with
            | (_, some e) => (s, [], some e)
            | (merged, none) =>
              match PushToCache s merged with
              | (s1, some e) => (s1, [], some e)
              | (s1, none) => (s1, merged, none)

/-- The method `HybridBackend.All`. -/
def All (px : Prefixes) (f : Faults) (s : NodeState) : NodeState × AttrMap × GoError :=
  getAll px f s false false true

/-- The method `HybridBackend.Get`. -/
def Get (px : Prefixes) (f : Faults) (s : NodeState) (key : String) : String × GoError :=
  if (PullFromCache s).2 = none ∧ len (mapIndex (PullFromCache s).1 key) > 0 then
    (mapIndex (PullFromCache s).1 key, none)
  else if isGrantAttribute px key then
    match xattrGet f s (grantsOffloadedAttr px) with
    | (offloaded, err) =>
      if err = none ∧ offloaded = "1" then
        match ReadFile s with
        | (_, some e) => ("", some e)
        | (msgBytes, none) =>
          match Unmarshal msgBytes with
          | (_, some e) => ("", some e)
          | (msgpackAttribs, none) => (mapIndex msgpackAttribs key, none)
      else xattrGet f s key
  else xattrGet f s key

/-- One iteration of a removal loop of `offloadMetadata` (lines 300-308 and
326-334): the accumulator is `(state, msgpackAttribs, xerrs, xerr)`, and `err`
is the function's variable `err`, which is what the loop body tests. -/
def offloadStep (px : Prefixes) (f : Faults) (err : GoError)
    (acc : NodeState × AttrMap × Nat × GoError) (kv : String × String) :
    NodeState × AttrMap × Nat × GoError :=
  if isGrantAttribute px kv.1 then
    match xattrRemove f acc.1 kv.1 with
    | (s1, xerr) =>
      (s1, mapSet acc.2.1 kv.1 kv.2, (if err ≠ none then acc.2.2.1 + 1 else acc.2.2.1), xerr)
  else acc

/-- The method `HybridBackend.offloadMetadata`. -/
def offloadMetadata (px : Prefixes) (f : Faults) (s : NodeState) : NodeState × GoError :=
  match getAll px f s true true false with
  | (s1, _, some e) => (s1, some e)
  | (s1, existingAttribs, none) =>
    match existingAttribs.foldl (offloadStep px f none) (s1, [], 0, none) with
    | (s2, msgpackAttribs, xerrs, xerr) =>
      match Marshal msgpackAttribs with
      | (_, some e) => (s2, some e)
      | (d, none) =>
        match WriteFile s2 d with
        | (s3, some e) => (s3, some e)
        | (s3, none) =>
          match xattrSet f s3 (grantsOffloadedAttr px) "1" with
          | (s4, some e) => (s4, some e)
          | (s4, none) =>
            match existingAttribs.foldl (offloadStep px f none)
                (s4, msgpackAttribs, xerrs, xerr) with
            | (s5, _, xerrs2, xerr2) =>
              if xerrs2 > 0 then (s5, Wrap xerr2 "Failed to remove xattrs while offloading")
              else (s5, none)

/-- Lines 217-249 of `SetMultiple`, the branch of an offloaded node.  The map
`attribs` declared at line 222 shadows the parameter, so the loop at lines
236-238 ranges over the decoded map and assigns it to itself.  The result is
`some err` when the function returns from inside the branch. -/
def setOffloaded (s : NodeState) (_attribs : AttrMap) : NodeState × Option GoError :=
  let decoded : AttrMap × Option GoError :=
    match ReadFile s with
    | (_, some e) => if !errorsIs e Err.notExist then ([], some (some e)) else ([], none)
    | (msgBytes, none) =>
      match Unmarshal msgBytes with
      | (_, some e) => ([], some (some e))
      | (m, none) => (m, none)
  match decoded with
  | (_, some ret) => (s, some ret)
  | (attribs, none) =>
    match Marshal (mapOverlay attribs attribs) with
    | (_, some e) => (s, some (some e))
    | (d, none) =>
      match WriteFile s d with
      | (s1, some e) => (s1, some (some e))
      | (s1, none) => (s1, none)

/-- One iteration of the write loop of `SetMultiple` (lines 255-260): the
accumulator is `(state, xerrs, xerr)`. -/
def setStep (f : Faults) (acc : NodeState × Nat × GoError) (kv : String × String) :
    NodeState × Nat × GoError :=
  match xattrSet f acc.1 kv.1 kv.2 with
  | (s1, some e) => (s1, acc.2.1 + 1, some e)
  | (s1, none) => (s1, acc.2.1, none)

/-- Lines 251-263 of `SetMultiple`, the branch of a node that is not offloaded.
The result is `some err` when the function returns from inside the branch,
with whatever `errors.Wrap` makes of the loop variable. -/
def setInline (f : Faults) (s : NodeState) (attribs : AttrMap) : NodeState × Option GoError :=
  match attribs.foldl (setStep f) (s, 0, none) with
  | (s1, xerrs, xerr) =>
    if xerrs > 0 then (s1, some (Wrap xerr "Failed to set all xattrs")) else (s1, none)

/-- Lines 276-281 of `SetMultiple`: the grant size of the merged view. -/
def grantSize (px : Prefixes) (attribs : AttrMap) : Nat :=
  (mapKeys attribs).foldl
    (fun g key => if isGrantAttribute px key then g + (len (mapIndex attribs key) + len key) else g) 0

/-- Lines 266-286 of `SetMultiple`: reload, push to the cache, offload. -/
def setFinish (px : Prefixes) (b : HybridBackend) (f : Faults) (s : NodeState)
    (offloaded : String) : NodeState × GoError :=
  match getAll px f s true false false with
  | (s1, _, some e) => (s1, some e)
  | (s1, attribs, none) =>
    match PushToCache s1 attribs with
    | (s2, some e) => (s2, some e)
    | (s2, none) =>
      if (grantSize px attribs : Int) > b.offloadLimit ∧ offloaded ≠ "1" then
        offloadMetadata px f s2
      else (s2, none)

/-- The method `HybridBackend.SetMultiple`.  Opening the lockfile (lines
203-213) does not touch the substrates. -/
def SetMultiple (px : Prefixes) (b : HybridBackend) (f : Faults) (s : NodeState)
    (attribs : AttrMap) (_acquireLock : Bool) : NodeState × GoError :=
  match xattrGet f s (grantsOffloadedAttr px) with
  | (offloaded, err) =>
    match (if err = none ∧ offloaded = "1" then setOffloaded s attribs
           else setInline f s attribs) with
    | (s1, some ret) => (s1, ret)
    | (s1, none) => setFinish px b f s1 offloaded

/-- The method `HybridBackend.Set`. -/
def Set (px : Prefixes) (b : HybridBackend) (f : Faults) (s : NodeState) (key val : String) :
    NodeState × GoError :=
  SetMultiple px b f s [(key, val)] true

/-- The method `HybridBackend.Remove`. -/
def Remove (px : Prefixes) (f : Faults) (s : NodeState) (key : String) (_acquireLock : Bool) :
    NodeState × GoError :=
  match xattrRemove f s key with
  | (s1, some e) => (s1, some e)
  | (s1, none) =>
    match getAll px f s1 true false false with
    | (s2, _, some e) => (s2, some e)
    | (s2, attribs, none) => PushToCache s2 attribs

/-- The removal loop of `Purge` (lines 377-384): it returns at the first failure. -/
def purgeLoop (px : Prefixes) (f : Faults) (s : NodeState) : List String → NodeState × GoError
  | [] => (s, none)
  | attr :: rest =>
    if hasPrefix attr px.OcPrefix then
      match xattrRemove f s attr with
      | (s1, some e) => (s1, some e)
      | (s1, none) => purgeLoop px f s1 rest
    else purgeLoop px f s rest

/-- The method `HybridBackend.Purge`. -/
def Purge (px : Prefixes) (f : Faults) (s : NodeState) : NodeState × GoError :=
  if s.pathExists then
    match getAll px f s true false true with
    | (s1, _, some e) => (s1, some e)
    | (s1, attribs, none) =>
      match purgeLoop px f s1 (mapKeys attribs) with
      | (s2, some e) => (s2, some e)
      | (s2, none) => RemoveMetadata s2
  else RemoveMetadata s

/-! ## Lockfiles -/

/-- The method `HybridBackend.LockfilePath` (line 407), on `n.InternalPath()`. -/
def LockfilePath (internalPath : String) : String :=
  internalPath ++ ".mlock"

/-- Modelled from the spec: the constant `filelocks.LockFileSuffix` (the package
`filelocks` is not part of the sources); the substrate locks use suffix `.lock`. -/
def specLockFileSuffix : String := ".lock"

/-- The lockfile `SetMultiple` opens (lines 203-213): `b.LockfilePath(n)` when
`acquireLock` is set, none otherwise. -/
def setMultipleLockfile (internalPath : String) (acquireLock : Bool) : Option String :=
  if acquireLock then some (LockfilePath internalPath) else none

/-- The lockfile `Set` opens: it calls `SetMultiple` with `acquireLock = true`. -/
def setLockfile (internalPath : String) : Option String :=
  setMultipleLockfile internalPath true

/-- The lockfile `Remove` opens (lines 345-351): `path+filelocks.LockFileSuffix`
when `acquireLock` is set, none otherwise. -/
def removeLockfile (lockFileSuffix internalPath : String) (acquireLock : Bool) :
    Option String :=
  if acquireLock then some (internalPath ++ lockFileSuffix) else none

/-- The lockfile `list` opens before it tries `xattr.List` again (lines 113-120):
`filePath+filelocks.LockFileSuffix` when `acquireLock` is set, none otherwise. -/
def listLockfile (lockFileSuffix internalPath : String) (acquireLock : Bool) : Option String :=
  if acquireLock then some (internalPath ++ lockFileSuffix) else none

/-- The lockfile `Lock(n)` opens, and removes on release (lines 411-421). -/
def lockLockfile (internalPath : String) : String :=
  LockfilePath internalPath

/-- The lockfiles held exclusively through an open handle, by path. -/
abbrev LockTable := List String

/-- The call `lockedfile.OpenFile(path, ...)`: it takes the exclusive lock of the
file, and does not return (`none`) while another handle holds it. -/
def lockedfileOpenFile (held : LockTable) (path : String) : Option LockTable :=
  if path ∈ held then none else some (path :: held)

/-- The method `HybridBackend.Lock` up to the unlock function it returns. -/
def Lock (held : LockTable) (internalPath : String) : Option LockTable :=
  lockedfileOpenFile held (lockLockfile internalPath)

/-- Lines 203-213 of `SetMultiple`: the lock it takes before touching the node. -/
def setMultipleAcquire (held : LockTable) (internalPath : String) (acquireLock : Bool) :
    Option LockTable :=
  match setMultipleLockfile internalPath acquireLock with
  | some path => lockedfileOpenFile held path
  | none => some held

/-- Lines 345-351 of `Remove`: the lock it takes before touching the node. -/
def removeAcquire (lockFileSuffix : String) (held : LockTable) (internalPath : String)
    (acquireLock : Bool) : Option LockTable :=
  match removeLockfile lockFileSuffix internalPath acquireLock with
  | some path => lockedfileOpenFile held path
  | none => some held

/-! ## Vocabulary of the properties -/

/-- The offload marker xattr reads `"1"`. -/
def isOffloaded (px : Prefixes) (s : NodeState) : Prop :=
  xattrGet noFaults s (grantsOffloadedAttr px) = ("1", none)

instance (px : Prefixes) (s : NodeState) : Decidable (isOffloaded px s) := by
  unfold isOffloaded; infer_instance

/-- No grant-prefixed xattr exists on `internal_path`. -/
def noGrantXattr (px : Prefixes) (s : NodeState) : Prop :=
  ∀ k, isGrantAttribute px k = true → mapGet s.xattrs k = none

/-- The value a key has in `base` overlaid by `over`. -/
def overlaid (base over : AttrMap) (k : String) : Option String :=
  match mapGet over k with
  | some v => some v
  | none => mapGet base k

/-- The total grant size of a map: the sum of `len(key) + len(value)` over its
grant-prefixed entries. -/
def grantBytes (px : Prefixes) (m : AttrMap) : Nat :=
  ((m.filter (fun kv => isGrantAttribute px kv.1)).map (fun kv => len kv.1 + len kv.2)).sum

/-- A sequence of `SetMultiple` calls on one node, each with the failures the
system calls meet during the call, its attribute map and its `acquireLock`
flag; the results of the calls are dropped. -/
def runSetMultiple (px : Prefixes) (b : HybridBackend) (s : NodeState) :
    List (Faults × AttrMap × Bool) → NodeState
  | [] => s
  | call :: rest =>
    runSetMultiple px b (SetMultiple px b call.1 s call.2.1 call.2.2).1 rest

/-- The backend of the end-to-end scenarios: `offload_limit = 100`. -/
def scenarioBackend : HybridBackend := { offloadLimit := 100 }

/-- A value of 120 bytes, the `"X"*120` of scenario 3. -/
def x120 : String := String.mk (List.replicate 120 'X')

/-- A node that exists and carries no attribute, no sidecar and no cache entry. -/
def scenario0 : NodeState :=
  { pathExists := true, xattrs := [], sidecar := none, cache := none }

/-- A node that exists and carries two plain attributes. -/
def twoAttrs : NodeState :=
  { pathExists := true, xattrs := [("user.a", "1"), ("user.b", "2")], sidecar := none,
    cache := none }

/-- The call `xattr.Set` fails on `user.a` and on no other name. -/
def setFailsOnA : Faults :=
  { setFails := ["user.a"], getFails := [], removeFails := [] }

/-- The call `xattr.Get` fails on `user.a` with an I/O error and on no other name. -/
def getFailsOnA : Faults :=
  { setFails := [], getFails := [("user.a", Err.io)], removeFails := [] }

/-- The call `xattr.Remove` fails on `user.grant.alice` and on no other name. -/
def removeFailsOnAlice : Faults :=
  { setFails := [], getFails := [], removeFails := ["user.grant.alice"] }

/-- The call `xattr.Get` fails on the offload marker with an I/O error. -/
def markerReadFails : Faults :=
  { setFails := [], getFails := [("user.grants_offloaded", Err.io)], removeFails := [] }

/-- A node that exists and carries one plain attribute, `user.size`. -/
def sizeNode : NodeState :=
  { pathExists := true, xattrs := [("user.size", "42")], sidecar := none, cache := none }

/-- A node that exists and carries one plain attribute, `user.a`. -/
def oneAttr : NodeState :=
  { pathExists := true, xattrs := [("user.a", "1")], sidecar := none, cache := none }

/-- A backend constructed with a negative limit, `NewHybridBackend(-1, ...)`. -/
def negativeLimitBackend : HybridBackend := { offloadLimit := -1 }

/-- Scenario 2: `set("user.grant.alice", "r")` on the fresh node. -/
def scenario2 : NodeState :=
  (Set specPrefixes scenarioBackend noFaults scenario0 "user.grant.alice" "r").1

/-- Scenario 3: starting from scenario 2, `set("user.grant.bob", "X"*120)`. -/
def scenario3 : NodeState :=
  (Set specPrefixes scenarioBackend noFaults scenario2 "user.grant.bob" x120).1

end Hybrid

namespace SpaceIndex

open Hybrid

/-! ## The space index -/

/-- The struct `Index` without its cache, which is part of the world below. -/
structure Index where
  root : String
  name : String
  deriving DecidableEq, Repr

/-- A regular file: its modification time and its content. -/
structure File where
  mtime : Nat
  data : FileData
  deriving DecidableEq, Repr

/-- The file system, the clock that stamps writes, and the entries of the
index's mtime-synced cache.  Every modification time on a file or in a cache
entry was read off the clock at an earlier instant. -/
structure World where
  files : String → Option File
  now : Nat
  cache : String → Option (Nat × AttrMap)
  files_past : ∀ p fl, files p = some fl → fl.mtime < now
  cache_past : ∀ k e, cache k = some e → e.1 < now

/-- The calls of `UpdateIndex` and `Load` that fail: opening the file with its
lock (directory missing, permission denied, lock not granted), `io.ReadAll`,
`Seek`, `Truncate` and `Write`. -/
structure IndexFaults where
  openFails : Bool
  readFails : Bool
  seekFails : Bool
  truncateFails : Bool
  writeFails : Bool
  deriving DecidableEq, Repr

/-- No call on the index file fails. -/
def noIndexFaults : IndexFaults :=
  { openFails := false, readFails := false, seekFails := false, truncateFails := false,
    writeFails := false }

/-- The path `filepath.Join(i.root, i.name, index+".mpk")` for components that
need no cleaning. -/
def indexPath (i : Index) (index : String) : String :=
  i.root ++ "/" ++ i.name ++ "/" ++ index ++ ".mpk"

/-- Put a file with the given content at a path: the file is stamped with the
clock, and the clock moves on, so that no two writes share a modification time. -/
def writeData (w : World) (path : String) (d : FileData) : World :=
  { files := fun p => if p = path then some { mtime := w.now, data := d } else w.files p
    now := w.now + 1
    cache := w.cache
    files_past := by
      intro p fl h
      by_cases hp : p = path
      · simp only [hp, if_true, Option.some.injEq] at h
        rw [← h]
        exact Nat.lt_succ_self _
      · simp only [hp, if_false] at h
        exact Nat.lt_succ_of_lt (w.files_past p fl h)
    cache_past := fun k e h => Nat.lt_succ_of_lt (w.cache_past k e h) }

/-- The call `lockedfile.OpenFile(path, os.O_RDWR|os.O_CREATE, 0600)`: it can fail;
otherwise a missing file is created empty, and the content of the file is what
`io.ReadAll` will return. -/
def openCreate (f : IndexFaults) (w : World) (path : String) : World × FileData × GoError :=
  if f.openFails then (w, FileData.empty, some Err.io)
  else
    match w.files path with
    | some fl => (w, fl.data, none)
    | none => (writeData w path FileData.empty, FileData.empty, none)

/-- The method `Index.UpdateIndex`. -/
def UpdateIndex (f : IndexFaults) (i : Index) (w : World) (index : String)
    (addLinks : AttrMap) (removeLinks : List String) : World × GoError :=
  match openCreate f w (indexPath i index) with
  | (w1, _, some e) => (w1, Wrap (some e) "unable to lock index to write")
  | (w1, msgBytes, none) =>
    if f.readFails then (w1, some Err.io)
    else
      match (if msgBytes ≠ FileData.empty then Unmarshal msgBytes else ([], none)) with
      | (_, some e) => (w1, some e)
      | (links, none) =>
        let links1 := addLinks.foldl (fun acc kv => mapSet acc kv.1 kv.2) links
        let links2 := removeLinks.foldl (fun acc key => mapDelete acc key) links1
        if f.seekFails then (w1, some Err.io)
        else if f.truncateFails then (w1, some Err.io)
        else
          match Marshal links2 with
          | (_, some e) =>
            (writeData w1 (indexPath i index) FileData.empty,
              Wrap (some e) "unable to marshal index")
          | (d, none) =>
            if f.writeFails then
              (writeData w1 (indexPath i index) FileData.empty,
                Wrap (some Err.io) "unable to write index")
            else
              (writeData (writeData w1 (indexPath i index) FileData.empty)
                (indexPath i index) d, none)

/-- The method `Index.Add`. -/
def Add (f : IndexFaults) (i : Index) (w : World) (index key value : String) :
    World × GoError :=
  UpdateIndex f i w index [(key, value)] []

/-- The method `Index.Remove`. -/
def Remove (f : IndexFaults) (i : Index) (w : World) (index key : String) : World × GoError :=
  UpdateIndex f i w index [] [key]

/-- Replace the cache entry of a key by a value stamped with a modification time
read earlier. -/
def storeEntry (w : World) (key : String) (mtime : Nat) (h : mtime < w.now) (v : AttrMap) :
    World :=
  { files := w.files
    now := w.now
    cache := fun k => if k = key then some (mtime, v) else w.cache k
    files_past := w.files_past
    cache_past := by
      intro k e he
      by_cases hk : k = key
      · simp only [hk, if_true, Option.some.injEq] at he
        rw [← he]
        exact h
      · simp only [hk, if_false] at he
        exact w.cache_past k e he }

/-- Modelled from the spec: `load_or_store(key, mtime, loader)` of the
mtime-keyed cache (section 4.D); the package `mtimesyncedcache` is not part of
the sources.  An entry with the same mtime is returned, otherwise the loader
runs and its value replaces the entry. -/
def LoadOrStore (w : World) (key : String) (mtime : Nat) (h : mtime < w.now)
    (loader : World → AttrMap × GoError) : World × AttrMap × GoError :=
  let run : World × AttrMap × GoError :=
    match loader w with
    | (_, some e) => (w, [], some e)
    | (v, none) => (storeEntry w key mtime h v, v, none)
  match w.cache key with
  | some (mt, v) => if mt = mtime then (w, v, none) else run
  | none => run

/-- The method `Index.readSpaceIndex`. -/
def readSpaceIndex (f : IndexFaults) (w : World) (path cacheKey : String) (mtime : Nat)
    (h : mtime < w.now) : World × AttrMap × GoError :=
  LoadOrStore w cacheKey mtime h (fun w0 =>
    if f.openFails then ([], Wrap (some Err.io) "unable to lock index to read")
    else
      match w0.files path with
      | none => ([], Wrap (some Err.notExist) "unable to lock index to read")
      | some fl =>
        if f.readFails then ([], Wrap (some Err.io) "unable to read index")
        else if fl.data ≠ FileData.empty then
          match Unmarshal fl.data with
          | (_, some e) => ([], Wrap (some e) "unable to parse index")
          | (links, none) => (links, none)
        else ([], none))

/-- The method `Index.Load`. -/
def Load (f : IndexFaults) (i : Index) (w : World) (index : String) :
    World × AttrMap × GoError :=
  match h : w.files (indexPath i index) with
  | none => (w, [], some Err.notExist)
  | some fi =>
    readSpaceIndex f w (indexPath i index) (i.name ++ ":" ++ index) fi.mtime
      (w.files_past _ fi h)

/-- The map an index file decodes to: the empty map when the file is missing
(it is created on the first update) or empty, nothing when it is malformed. -/
def storedLinks (w : World) (path : String) : Option AttrMap :=
  match w.files path with
  | none => some []
  | some fl =>
    match fl.data with
    | FileData.empty => some []
    | FileData.msgpack m => some m
    | FileData.malformed => none

/-- A world with no file and an empty cache. -/
def emptyWorld : World :=
  { files := fun _ => none, now := 0, cache := fun _ => none
    files_past := fun _ _ h => nomatch h
    cache_past := fun _ _ h => nomatch h }

/-- The index of scenario 6. -/
def byOwner : Index := { root := "indexes", name := "by-type" }

/-- A world in which the index of scenario 6 has been loaded while its file was
still missing a key: the cache holds the empty map under the file's stamp. -/
def loadedEmptyWorld : World :=
  (Load noIndexFaults byOwner
    (UpdateIndex noIndexFaults byOwner emptyWorld "by_owner" [] []).1 "by_owner").1

end SpaceIndex

namespace Hybrid

/-! ## Lemmas on Go maps -/

theorem mapGet_mapSet (m : AttrMap) (k v k' : String) :
    mapGet (mapSet m k v) k' = if k = k' then some v else mapGet m k' := by
  induction m with
  | nil => simp [mapSet, mapGet]
  | cons e rest ih =>
    obtain ⟨a, b⟩ := e
    by_cases h : a = k <;> by_cases h2 : a = k' <;> by_cases h3 : k = k' <;>
      simp_all [mapSet, mapGet]

theorem mapGet_eq_none_iff (m : AttrMap) (k : String) :
    mapGet m k = none ↔ k ∉ mapKeys m := by
  induction m with
  | nil => simp [mapGet, mapKeys]
  | cons e rest ih =>
    obtain ⟨a, b⟩ := e
    by_cases h : a = k
    · simp [mapGet, mapKeys, h]
    · have h' : ¬ k = a := fun h3 => h h3.symm
      simp only [mapKeys] at ih
      simp [mapGet, mapKeys, h, h', ih]

theorem mapGet_mapDelete (m : AttrMap) (k k' : String) :
    mapGet (mapDelete m k) k' = if k = k' then none else mapGet m k' := by
  induction m with
  | nil => simp [mapDelete, mapGet]
  | cons e rest ih =>
    obtain ⟨a, b⟩ := e
    unfold mapDelete at ih ⊢
    by_cases h : a = k <;> by_cases h2 : a = k' <;> by_cases h3 : k = k' <;>
      simp_all [List.filter_cons, mapGet]

theorem mapSet_of_not_mem (m : AttrMap) (k v : String) (h : k ∉ mapKeys m) :
    mapSet m k v = m ++ [(k, v)] := by
  induction m with
  | nil => simp [mapSet]
  | cons e rest ih =>
    obtain ⟨a, b⟩ := e
    simp only [mapKeys, List.map_cons, List.mem_cons, not_or] at h
    have h' : ¬ a = k := fun h3 => h.1 h3.symm
    simp only [mapKeys] at ih
    simp [mapSet, h', ih h.2]

theorem mapKeys_mapSet_mem (m : AttrMap) (k v k' : String) :
    k' ∈ mapKeys (mapSet m k v) ↔ k' = k ∨ k' ∈ mapKeys m := by
  rw [← not_iff_not, ← mapGet_eq_none_iff, mapGet_mapSet, not_or, ← mapGet_eq_none_iff]
  by_cases h : k = k'
  · simp [h]
  · have h' : ¬ k' = k := fun h3 => h h3.symm
    simp [h, h']

theorem mapKeys_mapSet_nodup (m : AttrMap) (k v : String) (h : (mapKeys m).Nodup) :
    (mapKeys (mapSet m k v)).Nodup := by
  induction m with
  | nil => simp [mapSet, mapKeys]
  | cons e rest ih =>
    obtain ⟨a, b⟩ := e
    simp only [mapKeys, List.map_cons, List.nodup_cons] at h
    by_cases h2 : a = k
    · subst h2
      simpa [mapSet, mapKeys] using h
    · have hmem := mapKeys_mapSet_mem rest k v a
      simp only [mapKeys] at ih hmem
      simp only [mapSet, h2, if_false, mapKeys, List.map_cons, List.nodup_cons]
      refine ⟨?_, ih h.2⟩
      rw [hmem]
      simp [h2, h.1]

theorem mapOverlay_nil (d : AttrMap) : mapOverlay d [] = d := rfl

theorem mapOverlay_cons (d : AttrMap) (e : String × String) (a : AttrMap) :
    mapOverlay d (e :: a) = mapOverlay (mapSet d e.1 e.2) a := rfl

theorem mapKeys_mapOverlay_nodup (a d : AttrMap) (h : (mapKeys d).Nodup) :
    (mapKeys (mapOverlay d a)).Nodup := by
  induction a generalizing d with
  | nil => simpa [mapOverlay_nil] using h
  | cons e rest ih =>
    rw [mapOverlay_cons]
    exact ih _ (mapKeys_mapSet_nodup d e.1 e.2 h)

theorem mapGet_mapOverlay (a d : AttrMap) (k : String) (ha : (mapKeys a).Nodup) :
    mapGet (mapOverlay d a) k = overlaid d a k := by
  induction a generalizing d with
  | nil => simp [mapOverlay_nil, overlaid, mapGet]
  | cons e rest ih =>
    obtain ⟨a0, b0⟩ := e
    simp only [mapKeys, List.map_cons, List.nodup_cons] at ha
    have ih' := ih (mapSet d a0 b0) ha.2
    rw [mapOverlay_cons, ih']
    unfold overlaid
    by_cases h : a0 = k
    · subst h
      have hn : mapGet rest a0 = none := (mapGet_eq_none_iff rest a0).2 ha.1
      simp [hn, mapGet, mapGet_mapSet]
    · simp [mapGet, mapGet_mapSet, h]

theorem mapGet_mapOverlay_of_not_mem (a d : AttrMap) (k : String) (h : k ∉ mapKeys a) :
    mapGet (mapOverlay d a) k = mapGet d k := by
  induction a generalizing d with
  | nil => rfl
  | cons e rest ih =>
    simp only [mapKeys, List.map_cons, List.mem_cons, not_or] at h
    rw [mapOverlay_cons, ih _ h.2, mapGet_mapSet]
    have h' : ¬ e.1 = k := fun h3 => h.1 h3.symm
    simp [h']

theorem mapOverlay_eq_nil (a d : AttrMap) (h : mapOverlay d a = []) : d = [] ∧ a = [] := by
  induction a generalizing d with
  | nil => exact ⟨h, rfl⟩
  | cons e rest ih =>
    rw [mapOverlay_cons] at h
    have := (ih _ h).1
    cases d with
    | nil => simp [mapSet] at this
    | cons x xs =>
      obtain ⟨a, b⟩ := x
      by_cases hx : a = e.1 <;> simp [mapSet, hx] at this

/-! ## The system calls when nothing fails beyond the OS semantics -/

theorem xattrGet_noFaults (s : NodeState) (k : String) (hex : s.pathExists = true) :
    xattrGet noFaults s k =
      match mapGet s.xattrs k with
      | some v => (v, none)
      | none => ("", some Err.noData) := by
  simp [xattrGet, hex, noFaults]

theorem xattrSet_noFaults (s : NodeState) (k v : String) (hex : s.pathExists = true) :
    xattrSet noFaults s k v = ({ s with xattrs := mapSet s.xattrs k v }, none) := by
  simp [xattrSet, hex, noFaults]

theorem isOffloaded_iff (px : Prefixes) (s : NodeState) :
    isOffloaded px s ↔
      s.pathExists = true ∧ mapGet s.xattrs (grantsOffloadedAttr px) = some "1" := by
  unfold isOffloaded
  by_cases hex : s.pathExists = true
  · rw [xattrGet_noFaults s _ hex]
    cases h : mapGet s.xattrs (grantsOffloadedAttr px) <;> simp [hex]
  · simp [xattrGet, hex]

/-- The test of lines 216 and 172 on the result of reading the marker. -/
theorem marker_test_iff (px : Prefixes) (s : NodeState) :
    ((xattrGet noFaults s (grantsOffloadedAttr px)).2 = none ∧
      (xattrGet noFaults s (grantsOffloadedAttr px)).1 = "1") ↔ isOffloaded px s := by
  unfold isOffloaded
  constructor
  · intro h
    exact Prod.ext h.2 h.1
  · intro h
    rw [h]
    exact ⟨rfl, rfl⟩

theorem marker_value_of_not_offloaded (px : Prefixes) (s : NodeState)
    (h : ¬ isOffloaded px s) (hex : s.pathExists = true) :
    (xattrGet noFaults s (grantsOffloadedAttr px)).1 ≠ "1" := by
  rw [isOffloaded_iff] at h
  rw [xattrGet_noFaults s _ hex]
  cases hm : mapGet s.xattrs (grantsOffloadedAttr px) with
  | none => simp
  | some v =>
    simp only [ne_eq]
    intro hv
    exact h ⟨hex, by rw [hm, hv]⟩

/-! ## The loops when nothing fails -/

theorem foldl_setStep_noFaults (attribs : AttrMap) (s : NodeState) (n : Nat) (e : GoError)
    (hex : s.pathExists = true) :
    attribs.foldl (setStep noFaults) (s, n, e) =
      ({ s with xattrs := mapOverlay s.xattrs attribs }, n,
        if attribs = [] then e else none) := by
  induction attribs generalizing s e with
  | nil => simp [mapOverlay_nil]
  | cons kv rest ih =>
    have hstep : setStep noFaults (s, n, e) kv =
        ({ s with xattrs := mapSet s.xattrs kv.1 kv.2 }, n, none) := by
      simp [setStep, xattrSet_noFaults s kv.1 kv.2 hex]
    rw [List.foldl_cons, hstep, ih _ none (by simpa using hex)]
    simp [mapOverlay_cons]

theorem foldl_getAllStep_noFaults (s : NodeState) (hex : s.pathExists = true)
    (x pre : AttrMap) (n : Nat) (e : GoError) (hx : s.xattrs = pre ++ x)
    (hnd : (mapKeys (pre ++ x)).Nodup) :
    (mapKeys x).foldl (getAllStep noFaults s) (pre, n, e) =
      (pre ++ x, n, if x = [] then e else none) := by
  induction x generalizing pre e with
  | nil => simp [mapKeys]
  | cons kv rest ih =>
    obtain ⟨k, v⟩ := kv
    have hk : k ∉ mapKeys pre := by
      simp only [mapKeys, List.map_append, List.map_cons] at hnd
      have := (List.nodup_append.1 hnd).2.2
      intro hmem
      exact this hmem (List.mem_cons_self _ _)
    have hget : mapGet s.xattrs k = some v := by
      rw [hx]
      clear hx hnd ih
      induction pre with
      | nil => simp [mapGet]
      | cons p ps ihp =>
        obtain ⟨a, b⟩ := p
        simp only [mapKeys, List.map_cons, List.mem_cons, not_or] at hk
        have : ¬ a = k := fun h3 => hk.1 h3.symm
        simp only [mapKeys] at ihp
        simp [mapGet, this, ihp hk.2]
    have hstep : getAllStep noFaults s (pre, n, e) k = (pre ++ [(k, v)], n, none) := by
      simp [getAllStep, xattrGet_noFaults s k hex, hget, mapSet_of_not_mem pre k v hk]
    simp only [mapKeys, List.map_cons, List.foldl_cons] at hstep ⊢
    rw [hstep]
    have := ih (pre ++ [(k, v)]) none (by simpa using hx) (by simpa using hnd)
    simp only [mapKeys] at this
    rw [this]
    simp

theorem mergeOffloaded_inline (px : Prefixes) (s : NodeState) (skipOffloaded : Bool)
    (attribs : AttrMap) (h : skipOffloaded = true ∨ ¬ isOffloaded px s) :
    mergeOffloaded px noFaults s skipOffloaded attribs = (attribs, none) := by
  unfold mergeOffloaded
  have hc : ¬ (skipOffloaded = false ∧
      (xattrGet noFaults s (grantsOffloadedAttr px)).2 = none ∧
      (xattrGet noFaults s (grantsOffloadedAttr px)).1 = "1") := by
    rintro ⟨h1, h2⟩
    rcases h with h | h
    · simp [h] at h1
    · exact h ((marker_test_iff px s).1 h2)
  simp only [hc, if_false]

/-- Reading all xattrs, skipping the cache, when the sidecar is not merged:
the result is the xattr set, and it is pushed to the cache unless it is empty. -/
theorem getAll_inline (px : Prefixes) (s : NodeState) (skipOffloaded acquireLock : Bool)
    (hex : s.pathExists = true) (hnd : (mapKeys s.xattrs).Nodup)
    (h : skipOffloaded = true ∨ ¬ isOffloaded px s) :
    getAll px noFaults s true skipOffloaded acquireLock =
      ((if s.xattrs = [] then s else { s with cache := some s.xattrs }), s.xattrs, none) := by
  unfold getAll
  have hl : list s acquireLock = (mapKeys s.xattrs, none) := by
    simp [list, xattrList, hex]
  simp only [Bool.true_eq_false, false_and, if_false, hl]
  by_cases hx : s.xattrs = []
  · simp [hx, mapKeys]
  · have hlen : ¬ (mapKeys s.xattrs).length = 0 := by
      simpa [mapKeys] using hx
    have hloop := foldl_getAllStep_noFaults s hex s.xattrs [] 0 none (by simp) (by simpa using hnd)
    simp only [List.nil_append] at hloop
    simp only [hlen, if_false, hloop, hx]
    simp [mergeOffloaded_inline px s skipOffloaded s.xattrs h, PushToCache]

/-! ## Offloading when nothing fails -/

theorem mapDelete_of_absent (m : AttrMap) (k : String) (h : mapGet m k = none) :
    mapDelete m k = m := by
  induction m with
  | nil => rfl
  | cons e rest ih =>
    obtain ⟨a, b⟩ := e
    unfold mapDelete at ih ⊢
    by_cases h2 : a = k
    · simp [mapGet, h2] at h
    · simp only [mapGet, h2, if_false] at h
      simp [List.filter_cons, h2, ih h]

theorem xattrRemove_noFaults (s : NodeState) (k : String) (hex : s.pathExists = true) :
    (xattrRemove noFaults s k).1 = { s with xattrs := mapDelete s.xattrs k } := by
  cases h : mapGet s.xattrs k with
  | none =>
    cases s
    simp_all [xattrRemove, noFaults, mapDelete_of_absent]
  | some v => simp [xattrRemove, hex, noFaults, h]

/-- The xattrs left by a removal loop of `offloadMetadata`. -/
theorem mapGet_foldl_delete (px : Prefixes) (l x : AttrMap) (k : String) :
    mapGet (l.foldl (fun acc kv => if isGrantAttribute px kv.1 then mapDelete acc kv.1 else acc) x)
        k =
      if isGrantAttribute px k = true ∧ k ∈ mapKeys l then none else mapGet x k := by
  induction l generalizing x with
  | nil => simp [mapKeys]
  | cons e rest ih =>
    obtain ⟨a, b⟩ := e
    simp only [List.foldl_cons, ih, mapKeys, List.map_cons, List.mem_cons]
    by_cases hg : isGrantAttribute px k = true
    · by_cases hr : k ∈ List.map Prod.fst rest
      · simp [hg, hr]
      · by_cases hak : a = k
        · subst hak
          simp [hg, hr, mapGet_mapDelete]
        · have hka : ¬ k = a := fun h3 => hak h3.symm
          by_cases hga : isGrantAttribute px a = true
          · simp [hg, hr, hka, hga, mapGet_mapDelete, hak]
          · simp [hg, hr, hka, hga]
    · by_cases hga : isGrantAttribute px a = true
      · have hak : ¬ a = k := by
          intro h3
          rw [h3] at hga
          exact hg hga
        simp [hg, hga, mapGet_mapDelete, hak]
      · simp [hg, hga]

theorem foldl_offloadStep_noFaults (px : Prefixes) (l : AttrMap) (s : NodeState) (m : AttrMap)
    (n : Nat) (e : GoError) (hex : s.pathExists = true) :
    ∃ e', l.foldl (offloadStep px noFaults none) (s, m, n, e) =
      ({ s with xattrs :=
            (l.foldl (fun acc kv => if isGrantAttribute px kv.1 then mapDelete acc kv.1 else acc)
              s.xattrs) },
        mapOverlay m (l.filter (fun kv => isGrantAttribute px kv.1)), n, e') := by
  induction l generalizing s m e with
  | nil => exact ⟨e, by simp [mapOverlay_nil]⟩
  | cons kv rest ih =>
    by_cases hg : isGrantAttribute px kv.1 = true
    · have hstep : offloadStep px noFaults none (s, m, n, e) kv =
          ({ s with xattrs := mapDelete s.xattrs kv.1 }, mapSet m kv.1 kv.2, n,
            (xattrRemove noFaults s kv.1).2) := by
        simp [offloadStep, hg, ← xattrRemove_noFaults s kv.1 hex]
      obtain ⟨e', he'⟩ := ih { s with xattrs := mapDelete s.xattrs kv.1 } (mapSet m kv.1 kv.2)
        (xattrRemove noFaults s kv.1).2 (by simpa using hex)
      refine ⟨e', ?_⟩
      rw [List.foldl_cons, hstep, he']
      simp [hg, List.filter_cons, mapOverlay_cons]
    · have hstep : offloadStep px noFaults none (s, m, n, e) kv = (s, m, n, e) := by
        simp [offloadStep, hg]
      obtain ⟨e', he'⟩ := ih s m e hex
      refine ⟨e', ?_⟩
      rw [List.foldl_cons, hstep, he']
      simp [hg, List.filter_cons]

theorem mapGet_filter_grant (px : Prefixes) (l : AttrMap) (k : String) :
    mapGet (l.filter (fun kv => isGrantAttribute px kv.1)) k =
      if isGrantAttribute px k = true then mapGet l k else none := by
  induction l with
  | nil => simp [mapGet]
  | cons e rest ih =>
    obtain ⟨a, b⟩ := e
    by_cases hga : isGrantAttribute px a = true <;> by_cases hak : a = k <;>
      by_cases hg : isGrantAttribute px k = true <;>
      simp_all [List.filter_cons, mapGet]

theorem mapKeys_filter_nodup (p : String × String → Bool) (l : AttrMap)
    (h : (mapKeys l).Nodup) : (mapKeys (l.filter p)).Nodup := by
  unfold mapKeys at h ⊢
  exact List.Nodup.sublist (List.Sublist.map _ (List.filter_sublist l)) h

/-- The map that `offloadMetadata` writes to the sidecar holds exactly the
grant-prefixed entries of the xattrs. -/
theorem mapGet_offloaded_grants (px : Prefixes) (l : AttrMap) (k : String)
    (h : (mapKeys l).Nodup) :
    mapGet (mapOverlay [] (l.filter (fun kv => isGrantAttribute px kv.1))) k =
      if isGrantAttribute px k = true then mapGet l k else none := by
  rw [mapGet_mapOverlay _ _ _ (mapKeys_filter_nodup _ l h)]
  unfold overlaid
  rw [mapGet_filter_grant]
  by_cases hg : isGrantAttribute px k = true
  · cases hl : mapGet l k <;> simp [hg, mapGet]
  · simp [hg, mapGet]

/-- What `offloadMetadata` does to a node when nothing fails: it succeeds, the
sidecar holds the grant xattrs, the marker is set and the grant xattrs are gone. -/
theorem offloadMetadata_noFaults (px : Prefixes) (s : NodeState)
    (hmk : isGrantAttribute px (grantsOffloadedAttr px) = false)
    (hex : s.pathExists = true) (hnd : (mapKeys s.xattrs).Nodup) :
    (offloadMetadata px noFaults s).2 = none ∧
    (offloadMetadata px noFaults s).1.pathExists = true ∧
    (offloadMetadata px noFaults s).1.sidecar =
      some (FileData.msgpack
        (mapOverlay [] (s.xattrs.filter (fun kv => isGrantAttribute px kv.1)))) ∧
    (offloadMetadata px noFaults s).1.cache =
      (if s.xattrs = [] then s.cache else some s.xattrs) ∧
    ∀ k, mapGet (offloadMetadata px noFaults s).1.xattrs k =
      if k = grantsOffloadedAttr px then some "1"
      else if isGrantAttribute px k = true then none else mapGet s.xattrs k := by
  have hga := getAll_inline px s true false hex hnd (Or.inl rfl)
  have hex1 : (if s.xattrs = [] then s else { s with cache := some s.xattrs }).pathExists = true := by
    split <;> simpa using hex
  obtain ⟨e1, h1⟩ := foldl_offloadStep_noFaults px s.xattrs
    (if s.xattrs = [] then s else { s with cache := some s.xattrs }) [] 0 none hex1
  simp only [offloadMetadata, hga, h1, Marshal, WriteFile]
  rw [xattrSet_noFaults _ _ _ (by simpa using hex1)]
  obtain ⟨e2, h2⟩ := foldl_offloadStep_noFaults px s.xattrs
    { (if s.xattrs = [] then s else { s with cache := some s.xattrs }) with
      xattrs := (mapSet
        (s.xattrs.foldl (fun acc kv => if isGrantAttribute px kv.1 then mapDelete acc kv.1 else acc)
          (if s.xattrs = [] then s else { s with cache := some s.xattrs }).xattrs)
        (grantsOffloadedAttr px) "1"),
      sidecar := some (FileData.msgpack
        (mapOverlay [] (s.xattrs.filter (fun kv => isGrantAttribute px kv.1)))) }
    (mapOverlay [] (s.xattrs.filter (fun kv => isGrantAttribute px kv.1))) 0 e1
    (by simpa using hex1)
  simp only [h2]
  refine ⟨by simp, by simpa using hex1, by simp, ?_, ?_⟩
  · by_cases hx : s.xattrs = [] <;> simp [hx]
  · intro k
    have hxs : (if s.xattrs = [] then s else { s with cache := some s.xattrs }).xattrs
        = s.xattrs := by
      split <;> rfl
    simp only [Nat.lt_irrefl, if_false, mapGet_foldl_delete, mapGet_mapSet, hxs]
    by_cases hk : k = grantsOffloadedAttr px
    · subst hk
      simp [hmk]
    · have hk' : ¬ grantsOffloadedAttr px = k := fun h3 => hk h3.symm
      by_cases hg : isGrantAttribute px k = true
      · by_cases hm : k ∈ mapKeys s.xattrs
        · simp [hk, hg, hm]
        · simp [hk, hk', hg, hm, (mapGet_eq_none_iff s.xattrs k).2 hm]
      · simp [hk, hk', hg]

/-! ## `SetMultiple` on a node that is not offloaded -/

/-- The state and result of `SetMultiple` on an existing node that is not
offloaded, when the attributes do not name the marker and nothing fails. -/
theorem SetMultiple_inline (px : Prefixes) (b : HybridBackend) (s : NodeState)
    (attribs : AttrMap) (acquireLock : Bool)
    (hex : s.pathExists = true) (hnd : (mapKeys s.xattrs).Nodup)
    (hnot : ¬ isOffloaded px s) (hnm : grantsOffloadedAttr px ∉ mapKeys attribs) :
    SetMultiple px b noFaults s attribs acquireLock =
      if (grantSize px (mapOverlay s.xattrs attribs) : Int) > b.offloadLimit then
        offloadMetadata px noFaults
          { s with xattrs := mapOverlay s.xattrs attribs,
                   cache := some (mapOverlay s.xattrs attribs) }
      else
        ({ s with xattrs := mapOverlay s.xattrs attribs,
                  cache := some (mapOverlay s.xattrs attribs) }, none) := by
  have hc : ¬ ((xattrGet noFaults s (grantsOffloadedAttr px)).2 = none ∧
      (xattrGet noFaults s (grantsOffloadedAttr px)).1 = "1") :=
    fun h => hnot ((marker_test_iff px s).1 h)
  have hv := marker_value_of_not_offloaded px s hnot hex
  have hnot1 : ¬ isOffloaded px { s with xattrs := mapOverlay s.xattrs attribs } := by
    rw [isOffloaded_iff] at hnot ⊢
    simp only [mapGet_mapOverlay_of_not_mem attribs s.xattrs _ hnm]
    exact hnot
  have hga := getAll_inline px { s with xattrs := mapOverlay s.xattrs attribs } false false
    (by simpa using hex) (mapKeys_mapOverlay_nodup attribs s.xattrs hnd) (Or.inr hnot1)
  simp only [SetMultiple, hc, if_false, setInline, foldl_setStep_noFaults attribs s 0 none hex,
    Nat.lt_irrefl, setFinish]
  rw [hga]
  simp only [PushToCache, gt_iff_lt, ne_eq, hv, not_false_eq_true, and_true]
  by_cases hx : mapOverlay s.xattrs attribs = [] <;> simp [hx]

theorem foldl_setStep_not_exists (f : Faults) (attribs : AttrMap) (s : NodeState) (n : Nat)
    (e : GoError) (hex : s.pathExists = false) :
    attribs.foldl (setStep f) (s, n, e) =
      (s, n + attribs.length, if attribs = [] then e else some Err.notExist) := by
  induction attribs generalizing n e with
  | nil => simp
  | cons kv rest ih =>
    have hstep : setStep f (s, n, e) kv = (s, n + 1, some Err.notExist) := by
      simp [setStep, xattrSet, hex]
    rw [List.foldl_cons, hstep, ih]
    simp only [List.length_cons, reduceCtorEq, if_false, Prod.mk.injEq, true_and]
    constructor
    · omega
    · split <;> rfl

/-- On a path that does not exist `SetMultiple` fails. -/
theorem SetMultiple_not_exists (px : Prefixes) (b : HybridBackend) (f : Faults) (s : NodeState)
    (attribs : AttrMap) (acquireLock : Bool) (hex : s.pathExists = false) :
    (SetMultiple px b f s attribs acquireLock).2 ≠ none := by
  have hg : xattrGet f s (grantsOffloadedAttr px) = ("", some Err.notExist) := by
    simp [xattrGet, hex]
  simp only [SetMultiple, hg, reduceCtorEq, false_and, if_false, setInline,
    foldl_setStep_not_exists f attribs s 0 none hex]
  cases attribs with
  | nil => simp [setFinish, getAll, list, xattrList, hex]
  | cons kv rest => simp [Wrap]

/-! ## What the operations leave untouched -/

theorem getAll_state (px : Prefixes) (f : Faults) (s : NodeState)
    (skipCache skipOffloaded acquireLock : Bool) :
    ∃ c, (getAll px f s skipCache skipOffloaded acquireLock).1 = { s with cache := c } := by
  unfold getAll
  split
  · exact ⟨s.cache, rfl⟩
  · split
    · exact ⟨s.cache, rfl⟩
    · split
      · exact ⟨s.cache, rfl⟩
      · split
        split
        · exact ⟨s.cache, rfl⟩
        · split
          · exact ⟨s.cache, rfl⟩
          · simp only [PushToCache]
            exact ⟨_, rfl⟩

/-- When the marker reads `"1"`, `SetMultiple` writes no xattr at all, whatever
else fails. -/
theorem SetMultiple_offloaded_xattrs (px : Prefixes) (b : HybridBackend) (f : Faults)
    (s : NodeState) (attribs : AttrMap) (acquireLock : Bool)
    (hread : xattrGet f s (grantsOffloadedAttr px) = ("1", none)) :
    (SetMultiple px b f s attribs acquireLock).1.xattrs = s.xattrs ∧
    (SetMultiple px b f s attribs acquireLock).1.pathExists = s.pathExists := by
  have hfin : ∀ s1 : NodeState,
      (setFinish px b f s1 "1").1.xattrs = s1.xattrs ∧
      (setFinish px b f s1 "1").1.pathExists = s1.pathExists := by
    intro s1
    obtain ⟨c, hcache⟩ := getAll_state px f s1 true false false
    unfold setFinish
    rcases hg : getAll px f s1 true false false with ⟨s2, m, e⟩
    rw [hg] at hcache
    simp only at hcache
    subst hcache
    cases e with
    | some e => simp
    | none => simp [PushToCache]
  have hset : ∃ d, (setOffloaded s attribs).1 = { s with sidecar := d } := by
    unfold setOffloaded
    simp only [Marshal, WriteFile]
    split
    · exact ⟨s.sidecar, rfl⟩
    · exact ⟨_, rfl⟩
  obtain ⟨d, hd⟩ := hset
  simp only [SetMultiple, hread, and_self, if_true]
  rcases hso : setOffloaded s attribs with ⟨s1, r⟩
  rw [hso] at hd
  simp only at hd
  subst hd
  cases r with
  | some ret => simp
  | none => simpa using hfin { s with sidecar := d }

/-- A failure pattern that spares the marker reads it as the OS does. -/
theorem xattrGet_marker_spared (px : Prefixes) (f : Faults) (s : NodeState)
    (hf : List.lookup (grantsOffloadedAttr px) f.getFails = none) :
    xattrGet f s (grantsOffloadedAttr px) = xattrGet noFaults s (grantsOffloadedAttr px) := by
  simp [xattrGet, hf, noFaults]

/-! ## The grant size -/

theorem mapGet_of_mem_nodup (m : AttrMap) (h : (mapKeys m).Nodup) (e : String × String)
    (he : e ∈ m) : mapGet m e.1 = some e.2 := by
  induction m with
  | nil => simp at he
  | cons x rest ih =>
    obtain ⟨a, b⟩ := x
    simp only [mapKeys, List.map_cons, List.nodup_cons] at h
    rcases List.mem_cons.1 he with h1 | h1
    · subst h1
      simp [mapGet]
    · have hne : ¬ a = e.1 := by
        intro h3
        apply h.1
        rw [h3]
        exact List.mem_map_of_mem Prod.fst h1
      simp only [mapKeys] at ih
      simp [mapGet, hne, ih h.2 h1]

theorem foldl_grantSize (px : Prefixes) (m l : AttrMap) (g : Nat)
    (h : ∀ e ∈ l, mapGet m e.1 = some e.2) :
    (mapKeys l).foldl
        (fun g key =>
          if isGrantAttribute px key then g + (len (mapIndex m key) + len key) else g) g =
      g + grantBytes px l := by
  induction l generalizing g with
  | nil => simp [mapKeys, grantBytes]
  | cons e rest ih =>
    have he := h e (List.mem_cons_self _ _)
    have hrest : ∀ x ∈ rest, mapGet m x.1 = some x.2 :=
      fun x hx => h x (List.mem_cons_of_mem _ hx)
    simp only [mapKeys] at ih
    simp only [mapKeys, List.map_cons, List.foldl_cons, ih _ hrest]
    by_cases hg : isGrantAttribute px e.1 = true
    · simp only [hg, if_true, grantBytes, List.filter_cons, List.map_cons, List.sum_cons,
        mapIndex, he, Option.getD_some]
      omega
    · simp [hg, grantBytes, List.filter_cons]

/-- The loop of lines 276-281 computes the total grant size of the map. -/
theorem grantSize_eq_grantBytes (px : Prefixes) (m : AttrMap) (h : (mapKeys m).Nodup) :
    grantSize px m = grantBytes px m := by
  unfold grantSize
  rw [foldl_grantSize px m m 0 (mapGet_of_mem_nodup m h)]
  simp

/-! ## Reading one attribute -/

/-- The value `Get` returns, from what the cache and the substrates hold. -/
theorem Get_of_substrate (px : Prefixes) (t : NodeState) (key v : String)
    (hex : t.pathExists = true)
    (hcache : ∀ m, t.cache = some m → len (mapIndex m key) > 0 → mapIndex m key = v)
    (hside : isGrantAttribute px key = true → isOffloaded px t →
      ∃ m, t.sidecar = some (FileData.msgpack m) ∧ mapIndex m key = v)
    (hxattr : ¬ (isGrantAttribute px key = true ∧ isOffloaded px t) →
      mapGet t.xattrs key = some v) :
    Get px noFaults t key = (v, none) := by
  unfold Get
  split
  · rename_i h
    cases hc : t.cache with
    | none => simp [PullFromCache, hc] at h
    | some m =>
      simp only [PullFromCache, hc] at h ⊢
      rw [hcache m hc h.2]
  · by_cases hg : isGrantAttribute px key = true
    · simp only [hg, if_true]
      by_cases hoff : isOffloaded px t
      · have hc := (marker_test_iff px t).2 hoff
        obtain ⟨m, hm, hv⟩ := hside hg hoff
        simp [hc, ReadFile, hm, Unmarshal, hv]
      · have hc : ¬ ((xattrGet noFaults t (grantsOffloadedAttr px)).2 = none ∧
            (xattrGet noFaults t (grantsOffloadedAttr px)).1 = "1") :=
          fun h => hoff ((marker_test_iff px t).1 h)
        simp only [hc, if_false]
        rw [xattrGet_noFaults t key hex, hxattr (fun h => hoff h.2)]
    · simp only [hg, Bool.false_eq_true, if_false]
      rw [xattrGet_noFaults t key hex, hxattr (fun h => hg h.1)]

/-! ## Claims on the hybrid backend -/

/-- C1 (evaluation of the code at scenario 4): on the offloaded node of scenario 3,
`Set("user.size", "99")` returns success, yet the sidecar still decodes to the map
it held before, without `user.size`, and `All` does not contain `user.size`,
whether it is answered from the cache or after the cache entry has been cleared:
the attributes passed to `SetMultiple` are dropped on the offloaded path. -/
theorem C1_set_on_offloaded_node_drops_attribs :
    isOffloaded specPrefixes scenario3 ∧
    (Set specPrefixes scenarioBackend noFaults scenario3 "user.size" "99").2 = none ∧
    (Set specPrefixes scenarioBackend noFaults scenario3 "user.size" "99").1.sidecar =
      some (FileData.msgpack [("user.grant.alice", "r"), ("user.grant.bob", x120)]) ∧
    (Set specPrefixes scenarioBackend noFaults scenario3 "user.size" "99").1.xattrs =
      scenario3.xattrs ∧
    (All specPrefixes noFaults
      (Set specPrefixes scenarioBackend noFaults scenario3 "user.size" "99").1).2.2 = none ∧
    mapGet (All specPrefixes noFaults
      (Set specPrefixes scenarioBackend noFaults scenario3 "user.size" "99").1).2.1
      "user.size" = none ∧
    mapGet (All specPrefixes noFaults
      { (Set specPrefixes scenarioBackend noFaults scenario3 "user.size" "99").1 with
        cache := none }).2.1 "user.size" = none := by
  decide

/-- When no system call fails: on a node that is not offloaded, when the attributes do not name the
marker and the total grant size after the write exceeds `offloadLimit`, a
successful `SetMultiple` leaves the marker at `"1"`, the sidecar decoding to
exactly the grant-prefixed entries of the xattrs overlaid by the attributes, no
grant-prefixed xattr, and every other xattr except the marker as the overlay
gives it. -/
theorem SetMultiple_offloads_when_nothing_fails (px : Prefixes) (b : HybridBackend) (s : NodeState)
    (attribs : AttrMap) (acquireLock : Bool)
    (hmk : isGrantAttribute px (grantsOffloadedAttr px) = false)
    (hnd : (mapKeys s.xattrs).Nodup) (hattr : (mapKeys attribs).Nodup)
    (hnot : ¬ isOffloaded px s) (hnm : grantsOffloadedAttr px ∉ mapKeys attribs)
    (hsize : (grantBytes px (mapOverlay s.xattrs attribs) : Int) > b.offloadLimit)
    (hok : (SetMultiple px b noFaults s attribs acquireLock).2 = none) :
    isOffloaded px (SetMultiple px b noFaults s attribs acquireLock).1 ∧
    (∃ m, (SetMultiple px b noFaults s attribs acquireLock).1.sidecar
        = some (FileData.msgpack m) ∧
      ∀ k, mapGet m k =
        if isGrantAttribute px k = true then overlaid s.xattrs attribs k else none) ∧
    noGrantXattr px (SetMultiple px b noFaults s attribs acquireLock).1 ∧
    (∀ k, isGrantAttribute px k = false → k ≠ grantsOffloadedAttr px →
      mapGet (SetMultiple px b noFaults s attribs acquireLock).1.xattrs k
        = overlaid s.xattrs attribs k) := by
  by_cases hex : s.pathExists = true
  · have hndX := mapKeys_mapOverlay_nodup attribs s.xattrs hnd
    rw [SetMultiple_inline px b s attribs acquireLock hex hnd hnot hnm,
      grantSize_eq_grantBytes px _ hndX, if_pos hsize]
    obtain ⟨_, h2, h3, _, h5⟩ := offloadMetadata_noFaults px
      { s with xattrs := mapOverlay s.xattrs attribs,
               cache := some (mapOverlay s.xattrs attribs) } hmk (by simpa using hex) hndX
    refine ⟨?_, ⟨_, h3, ?_⟩, ?_, ?_⟩
    · rw [isOffloaded_iff]
      exact ⟨h2, by rw [h5]; simp⟩
    · intro k
      rw [mapGet_offloaded_grants px _ k hndX, mapGet_mapOverlay attribs s.xattrs k hattr]
    · intro k hk
      rw [h5]
      have hne : k ≠ grantsOffloadedAttr px := by
        intro h
        rw [h, hmk] at hk
        exact absurd hk (by simp)
      simp [hne, hk]
    · intro k hk hne
      rw [h5]
      simp only [hne, if_false, hk, Bool.false_eq_true]
      exact mapGet_mapOverlay attribs s.xattrs k hattr
  · exact absurd hok (SetMultiple_not_exists px b noFaults s attribs acquireLock (by simpa using hex))

/-- The offloading write of scenario 3: `set("user.grant.bob", "X"*120)` on the node of scenario 2. -/
theorem SetMultiple_offloads_at_scenario3 :
    isOffloaded specPrefixes scenario3 ∧
    (∃ m, scenario3.sidecar = some (FileData.msgpack m) ∧
      ∀ k, mapGet m k =
        if isGrantAttribute specPrefixes k = true
        then overlaid scenario2.xattrs [("user.grant.bob", x120)] k else none) ∧
    noGrantXattr specPrefixes scenario3 ∧
    (∀ k, isGrantAttribute specPrefixes k = false → k ≠ grantsOffloadedAttr specPrefixes →
      mapGet scenario3.xattrs k = overlaid scenario2.xattrs [("user.grant.bob", x120)] k) :=
  SetMultiple_offloads_when_nothing_fails specPrefixes scenarioBackend scenario2
    [("user.grant.bob", x120)] true (by decide) (by decide) (by decide) (by decide) (by decide)
    (by decide) (by decide)

theorem getAll_cache_miss (px : Prefixes) (f : Faults) (t : NodeState)
    (skipOffloaded acquireLock : Bool) (h : t.cache = none) :
    getAll px f t false skipOffloaded acquireLock = getAll px f t true skipOffloaded acquireLock := by
  unfold getAll
  simp [PullFromCache, h]

theorem getAll_cache_hit (px : Prefixes) (f : Faults) (t : NodeState)
    (skipOffloaded acquireLock : Bool) (m : AttrMap) (h : t.cache = some m) :
    getAll px f t false skipOffloaded acquireLock = (t, m, none) := by
  unfold getAll
  simp [PullFromCache, h]

/-- When no system call fails: on a node that is not offloaded, when the attributes `M` do not name the
marker and the total grant size after the write does not exceed `offloadLimit`
(equality included), a successful `SetMultiple` leaves the marker different from
`"1"` and the sidecar as it was, and a following `All` returns the pre-existing
xattrs overlaid by `M`, both from the cache entry the call left and after that
entry has been cleared. -/
theorem SetMultiple_then_All_when_nothing_fails (px : Prefixes) (b : HybridBackend) (s : NodeState)
    (M : AttrMap) (acquireLock : Bool)
    (hnd : (mapKeys s.xattrs).Nodup) (hM : (mapKeys M).Nodup)
    (hnot : ¬ isOffloaded px s) (hnm : grantsOffloadedAttr px ∉ mapKeys M)
    (hsize : (grantBytes px (mapOverlay s.xattrs M) : Int) ≤ b.offloadLimit)
    (hok : (SetMultiple px b noFaults s M acquireLock).2 = none) :
    mapGet (SetMultiple px b noFaults s M acquireLock).1.xattrs (grantsOffloadedAttr px)
      ≠ some "1" ∧
    (SetMultiple px b noFaults s M acquireLock).1.sidecar = s.sidecar ∧
    (SetMultiple px b noFaults s M acquireLock).1.cache ≠ none ∧
    (All px noFaults (SetMultiple px b noFaults s M acquireLock).1).2.2 = none ∧
    (∀ k, mapGet (All px noFaults (SetMultiple px b noFaults s M acquireLock).1).2.1 k
      = overlaid s.xattrs M k) ∧
    (All px noFaults
      { (SetMultiple px b noFaults s M acquireLock).1 with cache := none }).2.2 = none ∧
    (∀ k, mapGet (All px noFaults
      { (SetMultiple px b noFaults s M acquireLock).1 with cache := none }).2.1 k
      = overlaid s.xattrs M k) := by
  by_cases hex : s.pathExists = true
  · have hndX := mapKeys_mapOverlay_nodup M s.xattrs hnd
    have hmarker : mapGet (mapOverlay s.xattrs M) (grantsOffloadedAttr px) ≠ some "1" := by
      rw [mapGet_mapOverlay_of_not_mem M s.xattrs _ hnm]
      intro h
      exact hnot ((isOffloaded_iff px s).2 ⟨hex, h⟩)
    have hnot1 : ¬ isOffloaded px
        { s with xattrs := mapOverlay s.xattrs M, cache := (none : Option AttrMap) } := by
      rw [isOffloaded_iff]
      exact fun h => hmarker h.2
    have hmiss := getAll_inline px
      { s with xattrs := mapOverlay s.xattrs M, cache := (none : Option AttrMap) } false true
      (by simpa using hex) hndX (Or.inr hnot1)
    rw [SetMultiple_inline px b s M acquireLock hex hnd hnot hnm,
      grantSize_eq_grantBytes px _ hndX, if_neg (not_lt.2 hsize)]
    have hhit := getAll_cache_hit px noFaults
      { s with xattrs := mapOverlay s.xattrs M, cache := some (mapOverlay s.xattrs M) }
      false true _ rfl
    refine ⟨hmarker, rfl, by simp, ?_, ?_, ?_, ?_⟩
    · simp only [All]
      rw [hhit]
    · intro k
      simp only [All]
      rw [hhit]
      exact mapGet_mapOverlay M s.xattrs k hM
    · simp only [All]
      rw [getAll_cache_miss px noFaults _ false true rfl, hmiss]
    · intro k
      simp only [All]
      rw [getAll_cache_miss px noFaults _ false true rfl, hmiss]
      exact mapGet_mapOverlay M s.xattrs k hM
  · exact absurd hok (SetMultiple_not_exists px b noFaults s M acquireLock (by simpa using hex))

/-- The inline write of scenario 2: `set("user.grant.alice", "r")` on the fresh node stays under
the limit of 100 bytes. -/
theorem SetMultiple_then_All_at_scenario2 :
    mapGet scenario2.xattrs (grantsOffloadedAttr specPrefixes) ≠ some "1" ∧
    scenario2.sidecar = scenario0.sidecar ∧
    scenario2.cache ≠ none ∧
    (All specPrefixes noFaults scenario2).2.2 = none ∧
    (∀ k, mapGet (All specPrefixes noFaults scenario2).2.1 k
      = overlaid scenario0.xattrs [("user.grant.alice", "r")] k) ∧
    (All specPrefixes noFaults { scenario2 with cache := none }).2.2 = none ∧
    (∀ k, mapGet (All specPrefixes noFaults { scenario2 with cache := none }).2.1 k
      = overlaid scenario0.xattrs [("user.grant.alice", "r")] k) :=
  SetMultiple_then_All_when_nothing_fails specPrefixes scenarioBackend scenario0
    [("user.grant.alice", "r")] true (by decide) (by decide) (by decide) (by decide)
    (by decide) (by decide)

/-- The value `Get` returns with the cache entry and without it. -/
theorem Get_with_and_without_cache (px : Prefixes) (t : NodeState) (key v : String)
    (X : AttrMap) (hex : t.pathExists = true) (hc : t.cache = some X)
    (hidx : mapIndex X key = v)
    (hside : isGrantAttribute px key = true →
      mapGet t.xattrs (grantsOffloadedAttr px) = some "1" →
      ∃ m, t.sidecar = some (FileData.msgpack m) ∧ mapIndex m key = v)
    (hxattr : ¬ (isGrantAttribute px key = true ∧
        mapGet t.xattrs (grantsOffloadedAttr px) = some "1") →
      mapGet t.xattrs key = some v) :
    Get px noFaults t key = (v, none) ∧
    Get px noFaults { t with cache := none } key = (v, none) := by
  constructor
  · apply Get_of_substrate px t key v hex
    · intro m hm _
      rw [hc] at hm
      rw [← Option.some.inj hm, hidx]
    · intro hg hoff
      exact hside hg ((isOffloaded_iff px t).1 hoff).2
    · intro hno
      exact hxattr (fun h => hno ⟨h.1, (isOffloaded_iff px t).2 ⟨hex, h.2⟩⟩)
  · apply Get_of_substrate px { t with cache := none } key v (by simpa using hex)
    · intro m hm
      simp at hm
    · intro hg hoff
      exact hside hg ((isOffloaded_iff px _).1 hoff).2
    · intro hno
      exact hxattr (fun h => hno ⟨h.1, (isOffloaded_iff px _).2 ⟨by simpa using hex, h.2⟩⟩)

/-- When no system call fails: on a node that is not offloaded before the call, for every key other
than the marker name and every value, after a successful `Set` the call `Get`
returns the value without error, both with the cache entry the write left and
after that entry has been cleared, whether or not the write offloaded the node. -/
theorem Get_after_Set_when_nothing_fails (px : Prefixes) (b : HybridBackend) (s : NodeState) (key v : String)
    (hmk : isGrantAttribute px (grantsOffloadedAttr px) = false)
    (hnd : (mapKeys s.xattrs).Nodup) (hnot : ¬ isOffloaded px s)
    (hkey : key ≠ grantsOffloadedAttr px)
    (hok : (Set px b noFaults s key v).2 = none) :
    Get px noFaults (Set px b noFaults s key v).1 key = (v, none) ∧
    Get px noFaults { (Set px b noFaults s key v).1 with cache := none } key = (v, none) := by
  unfold Set at hok ⊢
  by_cases hex : s.pathExists = true
  · have hnm : grantsOffloadedAttr px ∉ mapKeys [(key, v)] := by
      simpa [mapKeys] using fun h => hkey h.symm
    have hX : mapOverlay s.xattrs [(key, v)] = mapSet s.xattrs key v := rfl
    have hndX := mapKeys_mapSet_nodup s.xattrs key v hnd
    have hXkey : mapGet (mapSet s.xattrs key v) key = some v := by
      rw [mapGet_mapSet]; simp
    have hXmarker : mapGet (mapSet s.xattrs key v) (grantsOffloadedAttr px) ≠ some "1" := by
      rw [mapGet_mapSet, if_neg hkey]
      intro h
      exact hnot ((isOffloaded_iff px s).2 ⟨hex, h⟩)
    have hidx : mapIndex (mapSet s.xattrs key v) key = v := by
      simp [mapIndex, hXkey]
    rw [SetMultiple_inline px b s [(key, v)] true hex hnd hnot hnm, hX]
    split
    · obtain ⟨_, h2, h3, h4, h5⟩ := offloadMetadata_noFaults px
        { s with xattrs := mapSet s.xattrs key v, cache := some (mapSet s.xattrs key v) }
        hmk (by simpa using hex) hndX
      have hcache : (offloadMetadata px noFaults
          { s with xattrs := mapSet s.xattrs key v,
                   cache := some (mapSet s.xattrs key v) }).1.cache
          = some (mapSet s.xattrs key v) := by
        rw [h4]; split <;> rfl
      apply Get_with_and_without_cache px _ key v _ h2 hcache hidx
      · intro hg _
        refine ⟨_, h3, ?_⟩
        simp [mapIndex, mapGet_offloaded_grants px _ key hndX, hg, hXkey]
      · intro hno
        have hm : mapGet (offloadMetadata px noFaults
            { s with xattrs := mapSet s.xattrs key v,
                     cache := some (mapSet s.xattrs key v) }).1.xattrs
            (grantsOffloadedAttr px) = some "1" := by
          rw [h5]; simp
        have hg : ¬ isGrantAttribute px key = true := fun hg => hno ⟨hg, hm⟩
        rw [h5, if_neg hkey, if_neg hg]
        exact hXkey
    · apply Get_with_and_without_cache px _ key v _ (by simpa using hex) rfl hidx
      · intro _ hm
        exact absurd hm hXmarker
      · intro _
        exact hXkey
  · exact absurd hok (SetMultiple_not_exists px b noFaults s [(key, v)] true (by simpa using hex))

/-- The writes of scenarios 1 and 3: an inline write of `user.size`, and the grant write
that offloads the node of scenario 2. -/
theorem Get_after_Set_at_scenarios :
    (Get specPrefixes noFaults scenario3 "user.grant.bob" = (x120, none) ∧
      Get specPrefixes noFaults { scenario3 with cache := none } "user.grant.bob"
        = (x120, none)) ∧
    (Get specPrefixes noFaults
        (Set specPrefixes scenarioBackend noFaults scenario0 "user.size" "42").1 "user.size"
        = ("42", none) ∧
      Get specPrefixes noFaults
        { (Set specPrefixes scenarioBackend noFaults scenario0 "user.size" "42").1 with
          cache := none } "user.size" = ("42", none)) :=
  ⟨Get_after_Set_when_nothing_fails specPrefixes scenarioBackend scenario2 "user.grant.bob" x120
      (by decide) (by decide) (by decide) (by decide) (by decide),
    Get_after_Set_when_nothing_fails specPrefixes scenarioBackend scenario0 "user.size" "42"
      (by decide) (by decide) (by decide) (by decide) (by decide)⟩

/-- C2 (evaluation of the code): on the node of scenario 2, which is not
offloaded, `SetMultiple` with `user.a` and the grant `user.grant.bob` of 120
bytes, iterated in this order with `xattr.Set` failing on `user.a` only and no
removal failing, returns success; afterwards the node carries 151 bytes of
grants, more than the limit of 100, yet the marker is not `"1"`, no sidecar
exists and the grants are still xattrs.  The failure counted at line 258 makes
the function return `errors.Wrap(nil)` at line 262, before the size check of
line 282. -/
theorem C2_swallowed_write_failure_skips_offload :
    ¬ isOffloaded specPrefixes scenario2 ∧
    grantsOffloadedAttr specPrefixes ∉ mapKeys [("user.a", "1"), ("user.grant.bob", x120)] ∧
    (xattrSet setFailsOnA scenario2 "user.a" "1").2 = some Err.io ∧
    (SetMultiple specPrefixes scenarioBackend setFailsOnA scenario2
      [("user.a", "1"), ("user.grant.bob", x120)] true).2 = none ∧
    grantBytes specPrefixes (SetMultiple specPrefixes scenarioBackend setFailsOnA scenario2
      [("user.a", "1"), ("user.grant.bob", x120)] true).1.xattrs = 151 ∧
    ((151 : Nat) : Int) > scenarioBackend.offloadLimit ∧
    ¬ isOffloaded specPrefixes (SetMultiple specPrefixes scenarioBackend setFailsOnA scenario2
      [("user.a", "1"), ("user.grant.bob", x120)] true).1 ∧
    (SetMultiple specPrefixes scenarioBackend setFailsOnA scenario2
      [("user.a", "1"), ("user.grant.bob", x120)] true).1.sidecar = none ∧
    isGrantAttribute specPrefixes "user.grant.bob" = true ∧
    mapGet (SetMultiple specPrefixes scenarioBackend setFailsOnA scenario2
      [("user.a", "1"), ("user.grant.bob", x120)] true).1.xattrs "user.grant.bob"
      = some x120 := by
  decide

/-- C3 (evaluation of the code): on a node that carries `user.size` and is not
offloaded, `SetMultiple` with `M = {user.a: 1, user.b: 2}`, iterated in this
order with `xattr.Set` failing on `user.a` only, returns success with a grant
size of 0, within the limit; the following `All` returns `user.size` and
`user.b` without `user.a`, which the pre-existing xattrs overlaid by `M` map to
`"1"`.  The call returned `errors.Wrap(nil)` at line 262, leaving `user.a`
unwritten and the cache without an entry. -/
theorem C3_swallowed_write_failure_breaks_round_trip :
    ¬ isOffloaded specPrefixes sizeNode ∧
    grantsOffloadedAttr specPrefixes ∉ mapKeys [("user.a", "1"), ("user.b", "2")] ∧
    ((grantBytes specPrefixes
        (mapOverlay sizeNode.xattrs [("user.a", "1"), ("user.b", "2")]) : Nat) : Int)
      ≤ scenarioBackend.offloadLimit ∧
    (SetMultiple specPrefixes scenarioBackend setFailsOnA sizeNode
      [("user.a", "1"), ("user.b", "2")] true).2 = none ∧
    ((grantBytes specPrefixes (SetMultiple specPrefixes scenarioBackend setFailsOnA sizeNode
        [("user.a", "1"), ("user.b", "2")] true).1.xattrs : Nat) : Int)
      ≤ scenarioBackend.offloadLimit ∧
    (SetMultiple specPrefixes scenarioBackend setFailsOnA sizeNode
      [("user.a", "1"), ("user.b", "2")] true).1.cache = none ∧
    (All specPrefixes noFaults (SetMultiple specPrefixes scenarioBackend setFailsOnA sizeNode
      [("user.a", "1"), ("user.b", "2")] true).1).2
      = ([("user.size", "42"), ("user.b", "2")], none) ∧
    mapGet (All specPrefixes noFaults (SetMultiple specPrefixes scenarioBackend setFailsOnA
      sizeNode [("user.a", "1"), ("user.b", "2")] true).1).2.1 "user.a" = none ∧
    overlaid sizeNode.xattrs [("user.a", "1"), ("user.b", "2")] "user.a" = some "1" := by
  decide

/-- C4 (evaluation of the code): with a backend whose limit is -1, on a node that
carries `user.a` and is not offloaded, `Set("user.grant.x", "rw")` during which
`xattr.Get` fails on `user.a` returns success; afterwards `Get("user.grant.x")`,
during which nothing fails, returns the empty value without error, with the
cache entry and without it.  The reload of line 266 returned `(nil, nil)` from
line 167, so the empty view was pushed to the cache and, its grant size 0 being
above the limit, offloaded: the sidecar is empty, the marker is `"1"` and the
grant is still an xattr that `Get` no longer reads. -/
theorem C4_swallowed_read_failure_loses_value :
    ¬ isOffloaded specPrefixes oneAttr ∧
    "user.grant.x" ≠ grantsOffloadedAttr specPrefixes ∧
    (Set specPrefixes negativeLimitBackend getFailsOnA oneAttr "user.grant.x" "rw").2 = none ∧
    Get specPrefixes noFaults
      (Set specPrefixes negativeLimitBackend getFailsOnA oneAttr "user.grant.x" "rw").1
      "user.grant.x" = ("", none) ∧
    Get specPrefixes noFaults
      { (Set specPrefixes negativeLimitBackend getFailsOnA oneAttr "user.grant.x" "rw").1 with
        cache := none } "user.grant.x" = ("", none) ∧
    (Set specPrefixes negativeLimitBackend getFailsOnA oneAttr "user.grant.x" "rw").1.sidecar
      = some (FileData.msgpack []) ∧
    isOffloaded specPrefixes
      (Set specPrefixes negativeLimitBackend getFailsOnA oneAttr "user.grant.x" "rw").1 ∧
    mapGet (Set specPrefixes negativeLimitBackend getFailsOnA oneAttr
      "user.grant.x" "rw").1.xattrs "user.grant.x" = some "rw" := by
  decide

/-- C5 (evaluation of the code at scenario 3): the `Set` that offloads the node of
scenario 2 returns success, and afterwards `All` answered from the cache lacks
the offload marker while `All` computed after the cache entry has been cleared
has it with value `"1"`: `offloadMetadata` changes the xattrs after the last
push to the cache and pushes nothing itself. -/
theorem C5_cache_stale_after_offload :
    (Set specPrefixes scenarioBackend noFaults scenario2 "user.grant.bob" x120).2 = none ∧
    (All specPrefixes noFaults scenario3).2.2 = none ∧
    mapGet (All specPrefixes noFaults scenario3).2.1 "user.grants_offloaded" = none ∧
    (All specPrefixes noFaults { scenario3 with cache := none }).2.2 = none ∧
    mapGet (All specPrefixes noFaults { scenario3 with cache := none }).2.1
      "user.grants_offloaded" = some "1" := by
  decide

theorem runSetMultiple_xattrs (px : Prefixes) (b : HybridBackend)
    (calls : List (Faults × AttrMap × Bool)) (s : NodeState) (hoff : isOffloaded px s)
    (hcalls : ∀ c ∈ calls, List.lookup (grantsOffloadedAttr px) c.1.getFails = none) :
    (runSetMultiple px b s calls).xattrs = s.xattrs ∧
    (runSetMultiple px b s calls).pathExists = s.pathExists := by
  induction calls generalizing s with
  | nil => exact ⟨rfl, rfl⟩
  | cons call rest ih =>
    have hread : xattrGet call.1 s (grantsOffloadedAttr px) = ("1", none) := by
      rw [xattrGet_marker_spared px call.1 s (hcalls call (List.mem_cons_self _ _))]
      exact hoff
    obtain ⟨h1, h2⟩ := SetMultiple_offloaded_xattrs px b call.1 s call.2.1 call.2.2 hread
    have hoff1 : isOffloaded px (SetMultiple px b call.1 s call.2.1 call.2.2).1 := by
      rw [isOffloaded_iff] at hoff ⊢
      rw [h1, h2]
      exact hoff
    obtain ⟨h3, h4⟩ := ih _ hoff1 (fun c hc => hcalls c (List.mem_cons_of_mem _ hc))
    simp only [runSetMultiple]
    exact ⟨h3.trans h1, h4.trans h2⟩

theorem scenario3_noGrantXattr : noGrantXattr specPrefixes scenario3 := by
  intro k hk
  have hx : scenario3.xattrs = [("user.grants_offloaded", "1")] := by decide
  rw [hx]
  have hne : ¬ "user.grants_offloaded" = k := by
    intro h
    rw [← h] at hk
    revert hk
    decide
  simp [mapGet, hne]

/-- C6 (counterexample): on the offloaded node of scenario 3, which carries no
grant-prefixed xattr, `Set("user.grant.carol", "rw")` during which the read of the
marker fails adds the grant as an xattr, and `SetMultiple` with the marker name
then overwrites the marker with `"0"`: a failed read of the marker at line 215
sends the call to the xattr branch.  Also, the `Set` of scenario 3 during which
the removal of `user.grant.alice` fails offloads the node of scenario 2 and
leaves that grant as an xattr. -/
theorem C6_failed_marker_read_breaks_stickiness :
    isOffloaded specPrefixes scenario3 ∧
    noGrantXattr specPrefixes scenario3 ∧
    (xattrGet markerReadFails scenario3 (grantsOffloadedAttr specPrefixes)).2 = some Err.io ∧
    isGrantAttribute specPrefixes "user.grant.carol" = true ∧
    mapGet (Set specPrefixes scenarioBackend markerReadFails scenario3
      "user.grant.carol" "rw").1.xattrs "user.grant.carol" = some "rw" ∧
    ¬ noGrantXattr specPrefixes
      (Set specPrefixes scenarioBackend markerReadFails scenario3 "user.grant.carol" "rw").1 ∧
    ¬ isOffloaded specPrefixes
      (SetMultiple specPrefixes scenarioBackend markerReadFails scenario3
        [("user.grants_offloaded", "0")] true).1 ∧
    (¬ isOffloaded specPrefixes scenario2 ∧
      isOffloaded specPrefixes
        (runSetMultiple specPrefixes scenarioBackend scenario2
          [(removeFailsOnAlice, [("user.grant.bob", x120)], true)]) ∧
      ¬ noGrantXattr specPrefixes
        (runSetMultiple specPrefixes scenarioBackend scenario2
          [(removeFailsOnAlice, [("user.grant.bob", x120)], true)])) := by
  refine ⟨by decide, scenario3_noGrantXattr, by decide, by decide, by decide, ?_, by decide,
    by decide, by decide, ?_⟩
  · intro h
    have h1 := h "user.grant.carol" (by decide)
    revert h1
    decide
  · intro h
    have h1 := h "user.grant.alice" (by decide)
    revert h1
    decide

/-- C6 (amended): offload is sticky under writes.  On a node whose marker xattr reads `"1"`
and that carries no grant-prefixed xattr, every `SetMultiple` and every `Set`,
whatever it returns, whatever attributes it is given (the marker name included)
and whichever system calls fail during it other than the read of the marker,
leaves the marker at `"1"` and no grant-prefixed xattr; so does every sequence
of such calls. -/
theorem C6_offload_is_sticky (px : Prefixes) (b : HybridBackend) (s : NodeState)
    (hoff : isOffloaded px s) (hng : noGrantXattr px s) :
    (∀ f attribs acquireLock, List.lookup (grantsOffloadedAttr px) f.getFails = none →
      isOffloaded px (SetMultiple px b f s attribs acquireLock).1 ∧
      noGrantXattr px (SetMultiple px b f s attribs acquireLock).1) ∧
    (∀ f key val, List.lookup (grantsOffloadedAttr px) f.getFails = none →
      isOffloaded px (Set px b f s key val).1 ∧
      noGrantXattr px (Set px b f s key val).1) ∧
    (∀ calls, (∀ c ∈ calls, List.lookup (grantsOffloadedAttr px) c.1.getFails = none) →
      isOffloaded px (runSetMultiple px b s calls) ∧
      noGrantXattr px (runSetMultiple px b s calls)) := by
  have hsingle : ∀ f attribs acquireLock,
      List.lookup (grantsOffloadedAttr px) f.getFails = none →
      isOffloaded px (SetMultiple px b f s attribs acquireLock).1 ∧
      noGrantXattr px (SetMultiple px b f s attribs acquireLock).1 := by
    intro f attribs acquireLock hf
    have hread : xattrGet f s (grantsOffloadedAttr px) = ("1", none) := by
      rw [xattrGet_marker_spared px f s hf]
      exact hoff
    obtain ⟨h1, h2⟩ := SetMultiple_offloaded_xattrs px b f s attribs acquireLock hread
    constructor
    · rw [isOffloaded_iff] at hoff ⊢
      rw [h1, h2]
      exact hoff
    · intro k hk
      rw [h1]
      exact hng k hk
  refine ⟨hsingle, fun f key val hf => hsingle f [(key, val)] true hf, ?_⟩
  intro calls hcalls
  obtain ⟨h1, h2⟩ := runSetMultiple_xattrs px b calls s hoff hcalls
  constructor
  · rw [isOffloaded_iff] at hoff ⊢
    rw [h1, h2]
    exact hoff
  · intro k hk
    rw [h1]
    exact hng k hk

/-- C6 at scenario 3, the node offloaded by the grant write of scenario 3. -/
theorem C6_offload_is_sticky_witness :
    (∀ f attribs acquireLock,
      List.lookup (grantsOffloadedAttr specPrefixes) f.getFails = none →
      isOffloaded specPrefixes
        (SetMultiple specPrefixes scenarioBackend f scenario3 attribs acquireLock).1 ∧
      noGrantXattr specPrefixes
        (SetMultiple specPrefixes scenarioBackend f scenario3 attribs acquireLock).1) ∧
    (∀ f key val, List.lookup (grantsOffloadedAttr specPrefixes) f.getFails = none →
      isOffloaded specPrefixes (Set specPrefixes scenarioBackend f scenario3 key val).1 ∧
      noGrantXattr specPrefixes (Set specPrefixes scenarioBackend f scenario3 key val).1) ∧
    (∀ calls,
      (∀ c ∈ calls, List.lookup (grantsOffloadedAttr specPrefixes) c.1.getFails = none) →
      isOffloaded specPrefixes (runSetMultiple specPrefixes scenarioBackend scenario3 calls) ∧
      noGrantXattr specPrefixes (runSetMultiple specPrefixes scenarioBackend scenario3 calls)) :=
  C6_offload_is_sticky specPrefixes scenarioBackend scenario3 (by decide)
    scenario3_noGrantXattr

/-- C7 (evaluation of the code at scenario 5): on the offloaded node of scenario 3,
whose path exists and whose sidecar holds two grants, `Purge` returns the
"no data" error of removing an xattr that is not set, and the cache entry of
the node is still there: the loop removes every key of the merged view, and the
grants of the sidecar are not xattrs. -/
theorem C7_purge_fails_on_offloaded_node :
    scenario3.pathExists = true ∧
    isOffloaded specPrefixes scenario3 ∧
    scenario3.sidecar =
      some (FileData.msgpack [("user.grant.alice", "r"), ("user.grant.bob", x120)]) ∧
    hasPrefix specPrefixes.GrantPrefix specPrefixes.OcPrefix = true ∧
    (Purge specPrefixes noFaults scenario3).2 = some Err.noData ∧
    (Purge specPrefixes noFaults scenario3).1.cache ≠ none := by
  decide

/-- C8 (evaluation of the code): `SetMultiple` on a node that is not offloaded,
iterating `user.a` then `user.b` with `xattr.Set` failing on `user.a` only,
returns `nil` although one write failed and `user.a` was not written; and
`getAll` over the names `user.a`, `user.b` with `xattr.Get` failing on `user.a`
with an error other than attribute-unset returns a `nil` error (and no
attributes).  The loop variable `xerr` holds the outcome of the last iteration
only, and `errors.Wrap` of `nil` is `nil`. -/
theorem C8_failed_attribute_returns_nil :
    ¬ isOffloaded specPrefixes scenario0 ∧
    (xattrSet setFailsOnA scenario0 "user.a" "1").2 = some Err.io ∧
    (SetMultiple specPrefixes scenarioBackend setFailsOnA scenario0
      [("user.a", "1"), ("user.b", "2")] true).2 = none ∧
    (SetMultiple specPrefixes scenarioBackend setFailsOnA scenario0
      [("user.a", "1"), ("user.b", "2")] true).1.xattrs = [("user.b", "2")] ∧
    (xattrGet getFailsOnA twoAttrs "user.a").2 = some Err.io ∧
    IsAttrUnset Err.io = false ∧
    (getAll specPrefixes getFailsOnA twoAttrs true false false).2 = ([], none) := by
  decide

/-- C9 (evaluation of the code): with `xattr.Remove` failing on
`user.grant.alice`, the `Set` of scenario 3 and the `offloadMetadata` it triggers
return `nil`, and afterwards the marker is `"1"` while the grant xattr
`user.grant.alice` is still on the node.  Without any injected failure the
second removal pass of scenario 3 fails on every grant (they are already
removed) and the call returns `nil` all the same: the loops test the variable
`err`, which is `nil` there, instead of the removal's result `xerr`. -/
theorem C9_removal_failures_not_counted :
    (xattrRemove removeFailsOnAlice scenario2 "user.grant.alice").2 = some Err.io ∧
    (Set specPrefixes scenarioBackend removeFailsOnAlice scenario2 "user.grant.bob" x120).2
      = none ∧
    (offloadMetadata specPrefixes removeFailsOnAlice
      (xattrSet noFaults scenario2 "user.grant.bob" x120).1).2 = none ∧
    mapGet (Set specPrefixes scenarioBackend removeFailsOnAlice scenario2
      "user.grant.bob" x120).1.xattrs "user.grants_offloaded" = some "1" ∧
    mapGet (Set specPrefixes scenarioBackend removeFailsOnAlice scenario2
      "user.grant.bob" x120).1.xattrs "user.grant.alice" = some "r" ∧
    isGrantAttribute specPrefixes "user.grant.alice" = true ∧
    (xattrRemove noFaults scenario3 "user.grant.alice").2 = some Err.noData ∧
    (Set specPrefixes scenarioBackend noFaults scenario2 "user.grant.bob" x120).2 = none := by
  decide

end Hybrid

namespace SpaceIndex

open Hybrid

/-! ## Claims on the space index -/

theorem mapGet_foldl_mapDelete (removeLinks : List String) (m : AttrMap) (k : String) :
    mapGet (removeLinks.foldl (fun acc key => mapDelete acc key) m) k =
      if k ∈ removeLinks then none else mapGet m k := by
  induction removeLinks generalizing m with
  | nil => simp
  | cons r rest ih =>
    simp only [List.foldl_cons, ih, List.mem_cons, mapGet_mapDelete]
    by_cases h1 : k ∈ rest
    · simp [h1]
    · by_cases h2 : r = k
      · simp [h2]
      · have h3 : ¬ k = r := fun h => h2 h.symm
        simp [h1, h2, h3]

/-- What a successful open gives `UpdateIndex` when the index file decodes to `L`. -/
theorem openCreate_eval (f : IndexFaults) (w : World) (path : String) (L : AttrMap)
    (hL : storedLinks w path = some L) (ho : f.openFails = false) :
    (openCreate f w path).2.2 = none ∧
    (if (openCreate f w path).2.1 ≠ FileData.empty then Unmarshal (openCreate f w path).2.1
      else ([], none)) = (L, none) ∧
    w.now ≤ (openCreate f w path).1.now ∧
    (openCreate f w path).1.cache = w.cache := by
  unfold storedLinks at hL
  unfold openCreate
  cases hf : w.files path with
  | none =>
    simp only [hf, Option.some.injEq] at hL
    subst hL
    simp [ho, writeData]
  | some fl =>
    simp only [hf] at hL
    cases hd : fl.data with
    | empty =>
      simp only [hd, Option.some.injEq] at hL
      subst hL
      simp [ho, hd]
    | msgpack m =>
      simp only [hd, Option.some.injEq] at hL
      subst hL
      simp [ho, hd, Unmarshal]
    | malformed => simp [hd] at hL

/-- What a successful `UpdateIndex` does to a world whose index file decodes to `L`. -/
theorem UpdateIndex_eval (f : IndexFaults) (i : Index) (w : World) (index : String)
    (addLinks : AttrMap) (removeLinks : List String) (L : AttrMap)
    (hL : storedLinks w (indexPath i index) = some L)
    (hok : (UpdateIndex f i w index addLinks removeLinks).2 = none) :
    ∃ t, (UpdateIndex f i w index addLinks removeLinks).1.files (indexPath i index) =
        some { mtime := t,
               data := FileData.msgpack
                 (removeLinks.foldl (fun acc key => mapDelete acc key)
                   (mapOverlay L addLinks)) } ∧
      w.now ≤ t ∧
      (UpdateIndex f i w index addLinks removeLinks).1.cache = w.cache := by
  by_cases ho : f.openFails = true
  · simp [UpdateIndex, openCreate, ho, Wrap] at hok
  · have ho' : f.openFails = false := by simpa using ho
    obtain ⟨h1, h2, h3, h4⟩ := openCreate_eval f w (indexPath i index) L hL ho'
    unfold UpdateIndex at hok ⊢
    rcases hoc : openCreate f w (indexPath i index) with ⟨w1, msgBytes, e⟩
    rw [hoc] at h1 h2 h3 h4 hok
    simp only at h1 h2 h3 h4
    subst h1
    simp only [h2] at hok ⊢
    by_cases hr : f.readFails = true
    · simp [hr] at hok
    · by_cases hs : f.seekFails = true
      · simp [hr, hs] at hok
      · by_cases ht : f.truncateFails = true
        · simp [hr, hs, ht] at hok
        · by_cases hw : f.writeFails = true
          · simp [hr, hs, ht, hw, Marshal, Wrap] at hok
          · refine ⟨w1.now + 1, ?_, by omega, ?_⟩
            · simp [hr, hs, ht, hw, Marshal, writeData, mapOverlay]
            · simp only [hr, hs, ht, hw, Marshal, writeData, Bool.false_eq_true, if_false]
              exact h4

/-- When no call fails, `UpdateIndex` succeeds on an index file that decodes. -/
theorem UpdateIndex_noIndexFaults (i : Index) (w : World) (index : String)
    (addLinks : AttrMap) (removeLinks : List String) (L : AttrMap)
    (hL : storedLinks w (indexPath i index) = some L) :
    (UpdateIndex noIndexFaults i w index addLinks removeLinks).2 = none := by
  obtain ⟨h1, h2, _, _⟩ := openCreate_eval noIndexFaults w (indexPath i index) L hL rfl
  unfold UpdateIndex
  rcases hoc : openCreate noIndexFaults w (indexPath i index) with ⟨w1, msgBytes, e⟩
  rw [hoc] at h1 h2
  simp only at h1 h2
  subst h1
  simp [h2, noIndexFaults, Marshal]

theorem storedLinks_of_file (w : World) (path : String) (t : Nat) (m : AttrMap)
    (h : w.files path = some { mtime := t, data := FileData.msgpack m }) :
    storedLinks w path = some m := by
  simp [storedLinks, h]

/-- A `Load` of an index whose file was written after the cache entry was taken
returns what the file decodes to: always when no call fails, and whenever it
returns without error. -/
theorem Load_of_file (i : Index) (w : World) (index : String) (t : Nat) (m : AttrMap)
    (hf : w.files (indexPath i index) = some { mtime := t, data := FileData.msgpack m })
    (hc : ∀ e, w.cache (i.name ++ ":" ++ index) = some e → e.1 ≠ t) :
    (Load noIndexFaults i w index).2 = (m, none) ∧
    ∀ f, (Load f i w index).2.2 = none → (Load f i w index).2.1 = m := by
  have key : ∀ f, (Load f i w index).2 = (m, none) ∨ (Load f i w index).2.2 ≠ none := by
    intro f
    unfold Load
    split
    · rename_i h
      rw [hf] at h
      exact absurd h (by simp)
    · rename_i fi h
      have hfi : fi = { mtime := t, data := FileData.msgpack m } := by
        rw [hf] at h
        exact (Option.some.inj h).symm
      subst hfi
      unfold readSpaceIndex LoadOrStore
      simp only [hf]
      cases hce : w.cache (i.name ++ ":" ++ index) with
      | none =>
        by_cases ho : f.openFails = true
        · right; simp [ho, Wrap]
        · by_cases hr : f.readFails = true
          · right; simp [ho, hr, Wrap]
          · left; simp [ho, hr, Unmarshal]
      | some e =>
        obtain ⟨mt, v⟩ := e
        have hne : ¬ mt = t := hc (mt, v) hce
        by_cases ho : f.openFails = true
        · right; simp [hne, ho, Wrap]
        · by_cases hr : f.readFails = true
          · right; simp [hne, ho, hr, Wrap]
          · left; simp [hne, ho, hr, Unmarshal]
  constructor
  · rcases key noIndexFaults with h | h
    · exact h
    · exfalso
      apply h
      unfold Load
      split
      · rename_i h0
        rw [hf] at h0
        exact absurd h0 (by simp)
      · rename_i fi h0
        have hfi : fi = { mtime := t, data := FileData.msgpack m } := by
          rw [hf] at h0
          exact (Option.some.inj h0).symm
        subst hfi
        unfold readSpaceIndex LoadOrStore
        simp only [hf]
        cases hce : w.cache (i.name ++ ":" ++ index) with
        | none => simp [noIndexFaults, Unmarshal]
        | some e =>
          obtain ⟨mt, v⟩ := e
          have hne : ¬ mt = t := hc (mt, v) hce
          simp [hne, noIndexFaults, Unmarshal]
  · intro f hok
    rcases key f with h | h
    · rw [h]
    · exact absurd hok h

/-- A `Load` that follows a successful `UpdateIndex` returns the map the update
left in the file, whatever the cache held before. -/
theorem Load_after_UpdateIndex (f : IndexFaults) (i : Index) (w : World) (index : String)
    (addLinks : AttrMap) (removeLinks : List String) (L : AttrMap)
    (hL : storedLinks w (indexPath i index) = some L)
    (hok : (UpdateIndex f i w index addLinks removeLinks).2 = none) :
    (Load noIndexFaults i (UpdateIndex f i w index addLinks removeLinks).1 index).2 =
      (removeLinks.foldl (fun acc key => mapDelete acc key) (mapOverlay L addLinks), none) ∧
    ∀ f', (Load f' i (UpdateIndex f i w index addLinks removeLinks).1 index).2.2 = none →
      (Load f' i (UpdateIndex f i w index addLinks removeLinks).1 index).2.1 =
        removeLinks.foldl (fun acc key => mapDelete acc key) (mapOverlay L addLinks) := by
  obtain ⟨t, h1, h2, h3⟩ := UpdateIndex_eval f i w index addLinks removeLinks L hL hok
  apply Load_of_file i _ index t _ h1
  intro e he
  rw [h3] at he
  have := w.cache_past _ e he
  omega

/-- C10 (counterexample): on an index with no file yet, `UpdateIndex` with
`addLinks = {k: v}` and `removeLinks = [k]` succeeds and leaves the index file
decoding to the empty map: the key of `addLinks` is not present with its value,
because the removals are applied after the additions. -/
theorem C10_addition_does_not_overwrite_removal :
    storedLinks emptyWorld (indexPath byOwner "by_owner") = some [] ∧
    (UpdateIndex noIndexFaults byOwner emptyWorld "by_owner" [("k", "v")] ["k"]).2 = none ∧
    storedLinks (UpdateIndex noIndexFaults byOwner emptyWorld "by_owner" [("k", "v")] ["k"]).1
      (indexPath byOwner "by_owner") = some [] ∧
    ¬ (∃ L', storedLinks
        (UpdateIndex noIndexFaults byOwner emptyWorld "by_owner" [("k", "v")] ["k"]).1
        (indexPath byOwner "by_owner") = some L' ∧ mapGet L' "k" = some "v") := by
  refine ⟨by decide, by decide, by decide, ?_⟩
  rintro ⟨L', h1, h2⟩
  have h3 : storedLinks
      (UpdateIndex noIndexFaults byOwner emptyWorld "by_owner" [("k", "v")] ["k"]).1
      (indexPath byOwner "by_owner") = some [] := by decide
  rw [h3] at h1
  rw [← Option.some.inj h1] at h2
  simp [mapGet] at h2

/-- C10 (amended): for every stored index map `L` (the empty map when the index
file is missing or empty) and whichever calls on the file fail, a successful
`UpdateIndex` leaves the index file decoding to a map in which every key of
`removeLinks` is absent, every `(k, v)` of `addLinks` whose key is not in
`removeLinks` is present with value `v`, and every other key of `L` keeps its
value; and it does succeed when no call fails.  In particular a successful `Add`
yields `L[k:=v]`, a successful `Remove` yields `L` without `k`, and on an index
that decodes to the empty map the successful sequence `Add(u1,v1); Add(u2,v2);
Remove(u1)` with `u1 ≠ u2` leaves the file decoding to `{u2: v2}`, which is
what `Load` then returns, whatever its cache held before the updates. -/
theorem C10_update_index_removals_win (i : Index) (w : World) (index : String)
    (addLinks : AttrMap) (removeLinks : List String) (L : AttrMap)
    (hadd : (mapKeys addLinks).Nodup)
    (hL : storedLinks w (indexPath i index) = some L) :
    (∀ f, (UpdateIndex f i w index addLinks removeLinks).2 = none →
      ∃ L', storedLinks (UpdateIndex f i w index addLinks removeLinks).1 (indexPath i index)
          = some L' ∧
        (∀ k, k ∈ removeLinks → mapGet L' k = none) ∧
        (∀ k v, mapGet addLinks k = some v → k ∉ removeLinks → mapGet L' k = some v) ∧
        (∀ k, k ∉ removeLinks → k ∉ mapKeys addLinks → mapGet L' k = mapGet L k)) ∧
    (UpdateIndex noIndexFaults i w index addLinks removeLinks).2 = none ∧
    (∀ f k v, (Add f i w index k v).2 = none →
      ∃ L', storedLinks (Add f i w index k v).1 (indexPath i index) = some L' ∧
        ∀ k', mapGet L' k' = if k' = k then some v else mapGet L k') ∧
    (∀ f k, (Remove f i w index k).2 = none →
      ∃ L', storedLinks (Remove f i w index k).1 (indexPath i index) = some L' ∧
        ∀ k', mapGet L' k' = if k' = k then none else mapGet L k') ∧
    (L = [] → ∀ u1 v1 u2 v2, u1 ≠ u2 →
      ((Add noIndexFaults i w index u1 v1).2 = none ∧
        (Add noIndexFaults i (Add noIndexFaults i w index u1 v1).1 index u2 v2).2 = none ∧
        (Remove noIndexFaults i
          (Add noIndexFaults i (Add noIndexFaults i w index u1 v1).1 index u2 v2).1
          index u1).2 = none) ∧
      ∀ f1 f2 f3,
        (Add f1 i w index u1 v1).2 = none →
        (Add f2 i (Add f1 i w index u1 v1).1 index u2 v2).2 = none →
        (Remove f3 i (Add f2 i (Add f1 i w index u1 v1).1 index u2 v2).1 index u1).2 = none →
        storedLinks
          (Remove f3 i (Add f2 i (Add f1 i w index u1 v1).1 index u2 v2).1 index u1).1
          (indexPath i index) = some [(u2, v2)] ∧
        (Load noIndexFaults i
          (Remove f3 i (Add f2 i (Add f1 i w index u1 v1).1 index u2 v2).1 index u1).1
          index).2 = ([(u2, v2)], none) ∧
        ∀ f4, (Load f4 i
            (Remove f3 i (Add f2 i (Add f1 i w index u1 v1).1 index u2 v2).1 index u1).1
            index).2.2 = none →
          (Load f4 i
            (Remove f3 i (Add f2 i (Add f1 i w index u1 v1).1 index u2 v2).1 index u1).1
            index).2.1 = [(u2, v2)]) := by
  refine ⟨?_, UpdateIndex_noIndexFaults i w index addLinks removeLinks L hL, ?_, ?_, ?_⟩
  · intro f hok
    obtain ⟨t, h2, _, _⟩ := UpdateIndex_eval f i w index addLinks removeLinks L hL hok
    refine ⟨_, storedLinks_of_file _ _ _ _ h2, ?_, ?_, ?_⟩
    · intro k hk
      rw [mapGet_foldl_mapDelete, if_pos hk]
    · intro k v hkv hk
      rw [mapGet_foldl_mapDelete, if_neg hk, mapGet_mapOverlay addLinks L k hadd]
      simp [overlaid, hkv]
    · intro k hk hka
      rw [mapGet_foldl_mapDelete, if_neg hk, mapGet_mapOverlay_of_not_mem addLinks L k hka]
  · intro f k v hok
    obtain ⟨t, h2, _, _⟩ := UpdateIndex_eval f i w index [(k, v)] [] L hL hok
    refine ⟨_, storedLinks_of_file _ _ _ _ h2, ?_⟩
    intro k'
    simp only [List.foldl_nil, mapOverlay_cons, mapOverlay_nil, mapGet_mapSet]
    by_cases h : k = k'
    · simp [h]
    · have h' : ¬ k' = k := fun h3 => h h3.symm
      simp [h, h']
  · intro f k hok
    obtain ⟨t, h2, _, _⟩ := UpdateIndex_eval f i w index [] [k] L hL hok
    refine ⟨_, storedLinks_of_file _ _ _ _ h2, ?_⟩
    intro k'
    simp only [List.foldl_cons, List.foldl_nil, mapOverlay_nil, mapGet_mapDelete]
    by_cases h : k = k'
    · simp [h]
    · have h' : ¬ k' = k := fun h3 => h h3.symm
      simp [h, h']
  · intro hnil u1 v1 u2 v2 hne
    subst hnil
    have hne' : ¬ u2 = u1 := fun h => hne h.symm
    have hchain : ∀ f1 f2 f3,
        (Add f1 i w index u1 v1).2 = none →
        (Add f2 i (Add f1 i w index u1 v1).1 index u2 v2).2 = none →
        storedLinks (Add f2 i (Add f1 i w index u1 v1).1 index u2 v2).1 (indexPath i index)
          = some [(u1, v1), (u2, v2)] ∧
        ((Remove f3 i (Add f2 i (Add f1 i w index u1 v1).1 index u2 v2).1 index u1).2 = none →
          ∃ t, (Remove f3 i (Add f2 i (Add f1 i w index u1 v1).1 index u2 v2).1 index u1).1.files
              (indexPath i index) = some { mtime := t, data := FileData.msgpack [(u2, v2)] }) := by
      intro f1 f2 f3 ha hb
      obtain ⟨t1, a2, _, _⟩ := UpdateIndex_eval f1 i w index [(u1, v1)] [] [] hL ha
      have hs1 := storedLinks_of_file _ _ _ _ a2
      obtain ⟨t2, b2, _, _⟩ := UpdateIndex_eval f2 i (Add f1 i w index u1 v1).1 index
        [(u2, v2)] [] _ hs1 hb
      have hs2 := storedLinks_of_file _ _ _ _ b2
      have hmap2 : List.foldl (fun acc key => mapDelete acc key)
          (mapOverlay (List.foldl (fun acc key => mapDelete acc key)
            (mapOverlay [] [(u1, v1)]) []) [(u2, v2)]) [] = [(u1, v1), (u2, v2)] := by
        simp [mapOverlay, mapSet, hne]
      rw [hmap2] at hs2
      refine ⟨hs2, ?_⟩
      intro hc
      obtain ⟨t3, c2, _, _⟩ := UpdateIndex_eval f3 i
        (Add f2 i (Add f1 i w index u1 v1).1 index u2 v2).1 index [] [u1] _ hs2 hc
      have hmap3 : List.foldl (fun acc key => mapDelete acc key)
          (mapOverlay [(u1, v1), (u2, v2)] []) [u1] = [(u2, v2)] := by
        simp [mapOverlay, mapDelete, hne']
      rw [hmap3] at c2
      exact ⟨t3, c2⟩
    refine ⟨?_, ?_⟩
    · have ha := UpdateIndex_noIndexFaults i w index [(u1, v1)] [] [] hL
      obtain ⟨t1, a2, _, _⟩ := UpdateIndex_eval noIndexFaults i w index [(u1, v1)] [] [] hL ha
      have hb := UpdateIndex_noIndexFaults i (Add noIndexFaults i w index u1 v1).1 index
        [(u2, v2)] [] _ (storedLinks_of_file _ _ _ _ a2)
      have hs2 := (hchain noIndexFaults noIndexFaults noIndexFaults ha hb).1
      exact ⟨ha, hb, UpdateIndex_noIndexFaults i _ index [] [u1] _ hs2⟩
    · intro f1 f2 f3 ha hb hc
      obtain ⟨hs2, hfile⟩ := hchain f1 f2 f3 ha hb
      obtain ⟨t3, c2⟩ := hfile hc
      have hload := Load_after_UpdateIndex f3 i
        (Add f2 i (Add f1 i w index u1 v1).1 index u2 v2).1 index [] [u1] _ hs2 hc
      have hmap3 : List.foldl (fun acc key => mapDelete acc key)
          (mapOverlay [(u1, v1), (u2, v2)] []) [u1] = [(u2, v2)] := by
        simp [mapOverlay, mapDelete, hne']
      rw [hmap3] at hload
      exact ⟨storedLinks_of_file _ _ _ _ c2, hload.1, hload.2⟩

/-- C10 (amended) at scenario 6, on a world whose cache already holds an entry for
the index, and at an update that adds two keys and removes one of them. -/
theorem C10_update_index_removals_win_witness :
    (∀ f, (UpdateIndex f byOwner loadedEmptyWorld "by_owner" [("u2", "v2"), ("u3", "v3")] ["u3"]).2 = none →
      ∃ L', storedLinks (UpdateIndex f byOwner loadedEmptyWorld "by_owner" [("u2", "v2"), ("u3", "v3")] ["u3"]).1 (indexPath byOwner "by_owner")
          = some L' ∧
        (∀ k, k ∈ ["u3"] → mapGet L' k = none) ∧
        (∀ k v, mapGet [("u2", "v2"), ("u3", "v3")] k = some v → k ∉ ["u3"] → mapGet L' k = some v) ∧
        (∀ k, k ∉ ["u3"] → k ∉ mapKeys [("u2", "v2"), ("u3", "v3")] → mapGet L' k = mapGet ([] : AttrMap) k)) ∧
    (UpdateIndex noIndexFaults byOwner loadedEmptyWorld "by_owner" [("u2", "v2"), ("u3", "v3")] ["u3"]).2 = none ∧
    (∀ f k v, (Add f byOwner loadedEmptyWorld "by_owner" k v).2 = none →
      ∃ L', storedLinks (Add f byOwner loadedEmptyWorld "by_owner" k v).1 (indexPath byOwner "by_owner") = some L' ∧
        ∀ k', mapGet L' k' = if k' = k then some v else mapGet ([] : AttrMap) k') ∧
    (∀ f k, (Remove f byOwner loadedEmptyWorld "by_owner" k).2 = none →
      ∃ L', storedLinks (Remove f byOwner loadedEmptyWorld "by_owner" k).1 (indexPath byOwner "by_owner") = some L' ∧
        ∀ k', mapGet L' k' = if k' = k then none else mapGet ([] : AttrMap) k') ∧
    (([] : AttrMap) = [] → ∀ u1 v1 u2 v2, u1 ≠ u2 →
      ((Add noIndexFaults byOwner loadedEmptyWorld "by_owner" u1 v1).2 = none ∧
        (Add noIndexFaults byOwner (Add noIndexFaults byOwner loadedEmptyWorld "by_owner" u1 v1).1 "by_owner" u2 v2).2 = none ∧
        (Remove noIndexFaults byOwner
          (Add noIndexFaults byOwner (Add noIndexFaults byOwner loadedEmptyWorld "by_owner" u1 v1).1 "by_owner" u2 v2).1
          "by_owner" u1).2 = none) ∧
      ∀ f1 f2 f3,
        (Add f1 byOwner loadedEmptyWorld "by_owner" u1 v1).2 = none →
        (Add f2 byOwner (Add f1 byOwner loadedEmptyWorld "by_owner" u1 v1).1 "by_owner" u2 v2).2 = none →
        (Remove f3 byOwner (Add f2 byOwner (Add f1 byOwner loadedEmptyWorld "by_owner" u1 v1).1 "by_owner" u2 v2).1 "by_owner" u1).2 = none →
        storedLinks
          (Remove f3 byOwner (Add f2 byOwner (Add f1 byOwner loadedEmptyWorld "by_owner" u1 v1).1 "by_owner" u2 v2).1 "by_owner" u1).1
          (indexPath byOwner "by_owner") = some [(u2, v2)] ∧
        (Load noIndexFaults byOwner
          (Remove f3 byOwner (Add f2 byOwner (Add f1 byOwner loadedEmptyWorld "by_owner" u1 v1).1 "by_owner" u2 v2).1 "by_owner" u1).1
          "by_owner").2 = ([(u2, v2)], none) ∧
        ∀ f4, (Load f4 byOwner
            (Remove f3 byOwner (Add f2 byOwner (Add f1 byOwner loadedEmptyWorld "by_owner" u1 v1).1 "by_owner" u2 v2).1 "by_owner" u1).1
            "by_owner").2.2 = none →
          (Load f4 byOwner
            (Remove f3 byOwner (Add f2 byOwner (Add f1 byOwner loadedEmptyWorld "by_owner" u1 v1).1 "by_owner" u2 v2).1 "by_owner" u1).1
            "by_owner").2.1 = [(u2, v2)]) :=
  C10_update_index_removals_win byOwner loadedEmptyWorld "by_owner"
    [("u2", "v2"), ("u3", "v3")] ["u3"] [] (by decide) (by decide)

end SpaceIndex

namespace Hybrid

/-! ## Claim on the lockfiles -/

theorem append_mlock_ne_append_lock (p : String) : p ++ ".mlock" ≠ p ++ ".lock" := by
  intro h
  have hlen := congrArg String.length h
  simp only [String.length_append] at hlen
  have h1 : (".mlock" : String).length = 6 := by decide
  have h2 : (".lock" : String).length = 5 := by decide
  omega

/-- C11 (evaluation of the code at every node path): with `acquireLock` set,
`SetMultiple` (and so `Set`) opens `internal_path + ".mlock"`, which is the
lockfile `Lock(n)` opens and not `internal_path + ".lock"`, the lockfile that
`Remove` and `list` open; so once `Lock(n)` is held, the lock acquisition of
`Set`/`SetMultiple` on the same node does not return, while that of `Remove`
does. -/
theorem C11_setMultiple_opens_the_lock_of_Lock (internalPath : String) :
    setMultipleLockfile internalPath true = some (internalPath ++ ".mlock") ∧
    setLockfile internalPath = some (lockLockfile internalPath) ∧
    setMultipleLockfile internalPath true ≠ some (internalPath ++ ".lock") ∧
    removeLockfile specLockFileSuffix internalPath true = some (internalPath ++ ".lock") ∧
    listLockfile specLockFileSuffix internalPath true = some (internalPath ++ ".lock") ∧
    setMultipleLockfile internalPath true
      ≠ removeLockfile specLockFileSuffix internalPath true ∧
    Lock [] internalPath = some [lockLockfile internalPath] ∧
    setMultipleAcquire [lockLockfile internalPath] internalPath true = none ∧
    removeAcquire specLockFileSuffix [lockLockfile internalPath] internalPath true ≠ none := by
  have hne := append_mlock_ne_append_lock internalPath
  refine ⟨rfl, rfl, ?_, rfl, rfl, ?_, ?_, ?_, ?_⟩
  · simpa [setMultipleLockfile, LockfilePath] using hne
  · simpa [setMultipleLockfile, removeLockfile, LockfilePath, specLockFileSuffix] using hne
  · simp [Lock, lockedfileOpenFile]
  · simp [setMultipleAcquire, setMultipleLockfile, lockedfileOpenFile, lockLockfile]
  · have hne' : ¬ internalPath ++ ".lock" = internalPath ++ ".mlock" := fun h => hne h.symm
    simp [removeAcquire, removeLockfile, lockedfileOpenFile, lockLockfile, LockfilePath,
      specLockFileSuffix, hne']

end Hybrid
